import Mathlib

/-!
Shallow embedding of the loveyatri profile service's identity-change core
(owner and customer variants), translated from
`src/modules/services/OwnerProfileService.ts`,
`src/modules/services/CustomerProfileUpdateService.ts` and
`src/modules/services/CustomerProfileService.ts`.

Conventions of the embedding:
* TS `string | null | undefined` fields of a request become `Option (Option String)`:
  `none` = absent (`undefined`), `some none` = explicit `null`, `some (some s)` = value.
* Throwing `AppError(status, msg)` becomes `Except.error ⟨status, msg⟩`.
* `prisma.$transaction` rollback: a service returns `Except AppError (DB × Result)`;
  the `run*` wrappers keep the pre-call database when the callback throws.
* JWTs are modelled symbolically: a token is its payload plus two flags, `sigOk`
  (signature verifies against the process secret) and `expired` (TTL elapsed).
  `jsonwebtoken.verify` checks the signature before expiry, so an expired token
  with a bad signature yields `JsonWebTokenError`, not `TokenExpiredError`.
-/

/-- JavaScript `s.jsTrim()`, modelled structurally on the character list so that
it evaluates by kernel reduction (`String.jsTrim` itself is defined by
well-founded recursion on byte positions and does not). -/
def String.jsTrim (s : String) : String :=
  String.mk (((s.data.dropWhile Char.isWhitespace).reverse.dropWhile Char.isWhitespace).reverse)

/-- `s.length`, computed structurally on the character list. -/
def String.jsLength (s : String) : Nat :=
  s.data.length

namespace Profile

/-- `AppError(statusCode, message)` thrown by the services; the class itself lives
outside `src/` but its shape (an HTTP status plus a fixed message) is evident from
every call site. -/
structure AppError where
  status : Nat
  message : String
deriving Repr, DecidableEq

/-- `s.replace(/\D/g, "")`: keep only the decimal digits of `s`. -/
def normalizeDigits (s : String) : String :=
  String.mk (s.data.filter Char.isDigit)

/-- `s.replace(/\s+/g, "")`: drop every whitespace character of `s`. -/
def stripWhitespace (s : String) : String :=
  String.mk (s.data.filter (fun c => !c.isWhitespace))

/-- The test `/^[^@\s]+@[^@\s]+\.[^@\s]+$/.test s` used for email validation:
no whitespace, exactly one `@` with a nonempty local part, and a `.` somewhere
strictly inside the part after the `@`. -/
def isEmailFormat (s : String) : Bool :=
  let cs := s.data
  let before := cs.takeWhile (fun c => c ≠ '@')
  match cs.dropWhile (fun c => c ≠ '@') with
  | [] => false
  | _ :: after =>
      cs.all (fun c => !c.isWhitespace) &&
      after.all (fun c => c ≠ '@') &&
      !before.isEmpty &&
      ((after.drop 1).dropLast.any (fun c => c = '.'))

/-- `/^\+\d{1,4}$/.test s` used for country-code validation. -/
def isCountryCodeFormat (s : String) : Bool :=
  match s.data with
  | '+' :: rest => !rest.isEmpty && rest.length ≤ 4 && rest.all Char.isDigit
  | _ => false

/-- `/^\d{4,10}$/.test s` used for pincode validation. -/
def isPincodeFormat (s : String) : Bool :=
  4 ≤ s.data.length && s.data.length ≤ 10 && s.data.all Char.isDigit

/-- `/^[0-9]{2}$/.test s` used for the GST state code. -/
def isTwoDigitCode (s : String) : Bool :=
  s.data.length = 2 && s.data.all Char.isDigit

/-- `if (cond) throw new AppError(...)` as a step of an `Except` pipeline. -/
def failIf (cond : Bool) (e : AppError) : Except AppError Unit :=
  if cond then .error e else .ok ()

/-- Failure modes of `jsonwebtoken.verify`. -/
inductive JwtError
  | expired
  | malformed
deriving Repr, DecidableEq

/-- A signed JWT, modelled as its decoded payload plus validity flags. -/
structure SignedToken (α : Type) where
  sigOk : Bool
  expired : Bool
  payload : α
deriving Repr, DecidableEq

/-- `jwt.verify(token, secret)`: the signature is checked before expiry, so a
token that fails the signature check raises `JsonWebTokenError` even if it is
also expired; `TokenExpiredError` only ever fires on a well-signed token. -/
def jwtVerify {α : Type} (t : SignedToken α) : Except JwtError α :=
  if !t.sigOk then .error .malformed
  else if t.expired then .error .expired
  else .ok t.payload

/-! ### Phone Verification Gate -/

/-- Payload of the phone-verification JWT: `{ isVerified, phone }`. -/
structure PhoneVerificationTokenPayload where
  isVerified : Bool
  phone : String
deriving Repr, DecidableEq

abbrev PhoneVerificationToken := SignedToken PhoneVerificationTokenPayload

/-- Error thrown when `PHONE_VERIFICATION_SECRET` is not configured. -/
def phoneGateUnavailableErr : AppError :=
  ⟨500, "Phone verification is temporarily unavailable. Please try again later."⟩

/-- Owner-variant gate error for a malformed / wrongly-signed / unverified token. -/
def ownerPhoneInvalidErr : AppError :=
  ⟨400, "Phone number is not verified - Please verify first before update."⟩

/-- Owner-variant gate error for an expired token. -/
def ownerPhoneExpiredErr : AppError :=
  ⟨401, "Phone verification token has expired. Please verify your phone again."⟩

/-- `verifyPhoneVerificationToken` from `OwnerProfileService.ts`: checks the
secret, verifies the JWT, and requires a nonempty `phone` with `isVerified`. -/
def verifyPhoneVerificationToken (secretConfigured : Bool)
    (t : PhoneVerificationToken) : Except AppError PhoneVerificationTokenPayload :=
  if !secretConfigured then .error phoneGateUnavailableErr
  else
    match jwtVerify t with
    | .ok decoded =>
        if decoded.phone == "" || !decoded.isVerified then .error ownerPhoneInvalidErr
        else .ok decoded
    | .error .expired => .error ownerPhoneExpiredErr
    | .error .malformed => .error ownerPhoneInvalidErr

/-- Customer-variant gate error for an expired token. -/
def custPhoneExpiredErr : AppError :=
  ⟨400, "Phone verification token has expired. Please verify your phone number again."⟩

/-- Customer-variant gate error for a malformed / wrongly-signed token. -/
def custPhoneInvalidErr : AppError :=
  ⟨400, "Invalid phone verification token."⟩

/-- `decodePhoneVerificationToken` from `CustomerProfileService.ts`: verifies
the JWT and returns the payload with a trimmed phone; `isVerified` is checked
by the caller, not here. -/
def decodePhoneVerificationToken (secretConfigured : Bool)
    (t : PhoneVerificationToken) : Except AppError PhoneVerificationTokenPayload :=
  if !secretConfigured then .error phoneGateUnavailableErr
  else
    match jwtVerify t with
    | .ok decoded => .ok { decoded with phone := decoded.phone.jsTrim }
    | .error .expired => .error custPhoneExpiredErr
    | .error .malformed => .error custPhoneInvalidErr

end Profile

namespace Profile

/-! ### Owner (admin) data model -/

/-- The `Admin` identity row (the fields read or written by the modelled core). -/
structure Admin where
  id : String
  fullName : String
  email : String
  isActive : Bool
  isProfileComplete : Bool
  emailVerifyVersion : Nat
deriving Repr, DecidableEq

/-- The `AdminProfile` row (1:1 with `Admin` via `adminId`). -/
structure AdminProfile where
  adminId : String
  phone : String
  countryCode : String
  photoUrl : String
  preferredLanguage : String
  shortBio : Option String
  isGstRegistered : Bool
  gstNumber : Option String
  gstLegalName : Option String
  gstStateCode : Option String
  gstBillingAddress : Option String
  pincode : Option String
deriving Repr, DecidableEq

/-- The owner-side store: the `admin` and `adminProfile` tables. -/
structure OwnerDB where
  admins : List Admin
  profiles : List AdminProfile
deriving Repr, DecidableEq

/-- `tx.admin.findUnique({ where: { id } })`. -/
def findAdmin (db : OwnerDB) (id : String) : Option Admin :=
  db.admins.find? (fun a => a.id == id)

/-- `tx.adminProfile.findUnique({ where: { adminId } })`. -/
def findAdminProfile (db : OwnerDB) (adminId : String) : Option AdminProfile :=
  db.profiles.find? (fun p => p.adminId == adminId)

/-- `tx.admin.findFirst({ where: { email, NOT: { id: adminId } } })`. -/
def findOtherAdminByEmail (db : OwnerDB) (email adminId : String) : Option Admin :=
  db.admins.find? (fun a => a.email == email && !(a.id == adminId))

/-- `tx.adminProfile.findFirst({ where: { phone, NOT: { adminId } } })`. -/
def findOtherAdminProfileByPhone (db : OwnerDB) (phone adminId : String) :
    Option AdminProfile :=
  db.profiles.find? (fun p => p.phone == phone && !(p.adminId == adminId))

/-- `tx.admin.update({ where: { id }, data })`: rewrite the matching row. -/
def updateAdminRow (db : OwnerDB) (id : String) (f : Admin → Admin) : OwnerDB :=
  { db with admins := db.admins.map (fun a => if a.id == id then f a else a) }

/-- `tx.adminProfile.update({ where: { adminId }, data })`. -/
def updateAdminProfileRow (db : OwnerDB) (adminId : String)
    (f : AdminProfile → AdminProfile) : OwnerDB :=
  { db with profiles := db.profiles.map (fun p => if p.adminId == adminId then f p else p) }

/-! ### Email-change token (owner variant) -/

/-- Payload signed into the owner email-change token: the update service signs
`{ ownerId, newEmail, oldEmail, version }`, and the confirmation service also
accepts a legacy `adminId` key. -/
structure OwnerEmailChangePayload where
  ownerId : Option String
  adminId : Option String
  newEmail : String
  oldEmail : String
  version : Option Nat
deriving Repr, DecidableEq

abbrev OwnerEmailChangeToken := SignedToken OwnerEmailChangePayload

/-- Modelled from the spec: the `emailChangeToken` helper imported from
`utils/generateEmailVerificationToken.js` is not part of the sources under
`src/`; per §4.3/§6 of the spec it signs the payload into a short-lived
(≈15 min) token.  A freshly minted token therefore carries a valid signature
and is not yet expired. -/
def emailChangeToken (p : OwnerEmailChangePayload) : OwnerEmailChangeToken :=
  ⟨true, false, p⟩

/-- JavaScript `a || b` on two possibly-absent strings, where the empty string
is falsy; `none` means the overall result is falsy. -/
def jsStrOr (a b : Option String) : Option String :=
  match a with
  | some s => if s == "" then (match b with
      | some t => if t == "" then none else some t
      | none => none)
    else some s
  | none => match b with
      | some t => if t == "" then none else some t
      | none => none

/-! ### Owner profile update (`UpdateOwnerProfileService`) -/

/-- Request body of `UpdateOwnerProfileService` (`OwnerProfileUpdateData` in TS).
`Option (Option _)`: `none` = field absent, `some none` = explicit `null`. -/
structure OwnerProfileUpdateData where
  adminId : String
  fullName : Option (Option String) := none
  email : Option (Option String) := none
  photoUrl : Option (Option String) := none
  preferredLanguage : Option (Option String) := none
  shortBio : Option (Option String) := none
  phoneVerificationToken : Option (Option PhoneVerificationToken) := none
  countryCode : Option (Option String) := none
  isGstRegistered : Option (Option Bool) := none
  gstNumber : Option (Option String) := none
  gstLegalName : Option (Option String) := none
  gstStateCode : Option (Option String) := none
  gstBillingAddress : Option (Option String) := none
  pincode : Option (Option String) := none
deriving Repr, DecidableEq

/-- The GST/billing block staged all-or-nothing into `adminProfileUpdateData`. -/
structure GstSet where
  isGstRegistered : Bool
  gstNumber : Option String
  gstLegalName : Option String
  gstStateCode : Option String
  gstBillingAddress : Option String
  pincode : Option String
deriving Repr, DecidableEq

/-- Result of `UpdateOwnerProfileService`: the updated owner (with profile),
the emailed change link (modelled by the token it embeds), and `phoneChanged`. -/
structure OwnerUpdateResult where
  owner : Admin
  profile : Option AdminProfile
  emailChangeLink : Option OwnerEmailChangeToken
  phoneChanged : Bool
deriving Repr, DecidableEq

/-- Step 4: `fullName` staging — trims, rejects an empty result. -/
def stagedFullName (x : Option (Option String)) : Except AppError (Option String) :=
  match x with
  | some (some s) =>
      if s.jsTrim == "" then .error ⟨400, "Full name cannot be empty"⟩
      else .ok (some s.jsTrim)
  | _ => .ok none

/-- Step 5: `photoUrl` staging — trims, rejects an empty result. -/
def stagedPhotoUrl (x : Option (Option String)) : Except AppError (Option String) :=
  match x with
  | some (some s) =>
      if s.jsTrim == "" then .error ⟨400, "Photo URL cannot be empty"⟩
      else .ok (some s.jsTrim)
  | _ => .ok none

/-- Step 5: `preferredLanguage` staging.  The enum-membership validation in the
source throws inside a `try { ... } catch { }` that swallows every error
(including its own `AppError`), so the trimmed value is always staged. -/
def stagedPreferredLanguage (x : Option (Option String)) : Option String :=
  match x with
  | some (some s) => some s.jsTrim
  | _ => none

/-- Step 5: `shortBio` staging — `null` clears, a value is trimmed with an empty
trim collapsing to `null`, absence leaves the column untouched. -/
def stagedShortBio (x : Option (Option String)) : Option (Option String) :=
  match x with
  | some none => some none
  | some (some s) => some (if s.jsTrim == "" then none else some s.jsTrim)
  | none => none

/-- Step 6.1: `countryCode` normalization — prefix `+`, keep digits, then the
`/^\+\d{1,4}$/` test; an input that trims to the empty string is ignored. -/
def stagedCountryCode (x : Option (Option String)) : Except AppError (Option String) :=
  match x with
  | some (some s) =>
      if s.jsTrim == "" then .ok none
      else
        let cc := match s.jsTrim.data with
          | '+' :: rest => "+" ++ normalizeDigits (String.mk rest)
          | _ => "+" ++ normalizeDigits s.jsTrim
        if !isCountryCodeFormat cc then
          .error ⟨400, "Invalid country code. It must be like +91, +1, etc."⟩
        else .ok (some cc)
  | _ => .ok none

/-- Steps 2–3 of the phone path: decode the verification token when present and
compute `(decodedPhone, wantsPhoneChange)`; `wantsPhoneChange` is true exactly
when the decoded, digit-normalized phone differs from the stored phone. -/
def decodeUpdatePhone (secretConfigured : Bool)
    (tok : Option (Option PhoneVerificationToken)) (currentPhone : String) :
    Except AppError (Option String × Bool) :=
  match tok with
  | some (some t) =>
      match verifyPhoneVerificationToken secretConfigured t with
      | .error e => .error e
      | .ok payload =>
          if payload.phone.jsTrim == "" then
            .error ⟨400,
              "Phone number not found in verification token. Please re-verify your phone."⟩
          else
            let normalizedPhone := normalizeDigits payload.phone.jsTrim
            if normalizedPhone == "" || normalizedPhone.jsLength < 7 then
              .error ⟨400,
                "Invalid phone number in verification token. Please re-verify your phone."⟩
            else .ok (some normalizedPhone, normalizedPhone != currentPhone)
  | _ => .ok (none, false)

/-- `undefined` = keep the current value, `null` = clear, a value is trimmed
with `trim() || null` collapsing the empty string to `null` (GST text fields). -/
def optClearOrTrim (cur : Option String) (x : Option (Option String)) : Option String :=
  match x with
  | none => cur
  | some none => none
  | some (some s) => if s.jsTrim == "" then none else some s.jsTrim

/-- `finalPincode`: like the other optional fields, but a nonempty value has
its whitespace stripped and must pass `/^\d{4,10}$/`. -/
def finalPincodeOf (cur : Option String) (x : Option (Option String)) :
    Except AppError (Option String) :=
  match x with
  | none => .ok cur
  | some none => .ok none
  | some (some s) =>
      if s.jsTrim == "" then .ok none
      else
        let np := stripWhitespace s.jsTrim
        if !isPincodeFormat np then
          .error ⟨400, "Pincode must be between 4 and 10 digits if provided."⟩
        else .ok (some np)

/-- JavaScript falsiness of a nullable string: `null` and `""` are falsy. -/
def strFalsy (o : Option String) : Bool :=
  match o with
  | none => true
  | some s => s == ""

/-- Step 7: the GST / billing block.  Final values start from the current
profile row, provided inputs override them, GST-registered profiles must pass
the validation battery, and the six columns are staged together iff any
GST-related input was provided at all. -/
def stagedGst (profile : AdminProfile) (d : OwnerProfileUpdateData) :
    Except AppError (Option GstSet) := do
  let hasIsGstRegisteredInput := match d.isGstRegistered with
    | some (some _) => true
    | _ => false
  let finalIsGstRegistered := match d.isGstRegistered with
    | some (some b) => b
    | _ => profile.isGstRegistered
  let finalGstNumber := optClearOrTrim profile.gstNumber d.gstNumber
  let finalGstLegalName := optClearOrTrim profile.gstLegalName d.gstLegalName
  let finalGstStateCode := optClearOrTrim profile.gstStateCode d.gstStateCode
  let finalGstBillingAddress := optClearOrTrim profile.gstBillingAddress d.gstBillingAddress
  let finalPincode ← finalPincodeOf profile.pincode d.pincode
  if finalIsGstRegistered then
    failIf (strFalsy finalGstNumber)
      ⟨400, "GST number is required when GST registration is enabled."⟩
    failIf (strFalsy finalGstLegalName)
      ⟨400, "GST legal name is required when GST registration is enabled."⟩
    failIf (strFalsy finalGstStateCode)
      ⟨400, "GST state code is required when GST registration is enabled."⟩
    failIf ((finalGstNumber.getD "").jsLength ≠ 15)
      ⟨400, "GST number must be exactly 15 characters as per GSTIN format."⟩
    failIf (!isTwoDigitCode (finalGstStateCode.getD ""))
      ⟨400, "GST state code must be a 2-digit numeric code."⟩
    let gstTouched := hasIsGstRegisteredInput || d.gstNumber ≠ none ||
      d.gstLegalName ≠ none || d.gstStateCode ≠ none ||
      d.gstBillingAddress ≠ none || d.pincode ≠ none
    if gstTouched then
      Except.ok (some ⟨finalIsGstRegistered, finalGstNumber, finalGstLegalName,
        finalGstStateCode, finalGstBillingAddress, finalPincode⟩)
    else Except.ok none
  else
    let cleared := hasIsGstRegisteredInput && !finalIsGstRegistered
    let finalGstNumber := if cleared then none else finalGstNumber
    let finalGstLegalName := if cleared then none else finalGstLegalName
    let finalGstStateCode := if cleared then none else finalGstStateCode
    let finalGstBillingAddress := if cleared then none else finalGstBillingAddress
    let gstTouched := hasIsGstRegisteredInput || d.gstNumber ≠ none ||
      d.gstLegalName ≠ none || d.gstStateCode ≠ none ||
      d.gstBillingAddress ≠ none || d.pincode ≠ none
    if gstTouched then
      Except.ok (some ⟨finalIsGstRegistered, finalGstNumber, finalGstLegalName,
        finalGstStateCode, finalGstBillingAddress, finalPincode⟩)
    else Except.ok none

/-- Apply `adminProfileUpdateData` to the profile row (step 10). -/
def applyAdminProfileUpdate (photoUrl preferredLanguage : Option String)
    (shortBio : Option (Option String)) (phone countryCode : Option String)
    (gst : Option GstSet) (p : AdminProfile) : AdminProfile :=
  { p with
    photoUrl := photoUrl.getD p.photoUrl
    preferredLanguage := preferredLanguage.getD p.preferredLanguage
    shortBio := match shortBio with | some v => v | none => p.shortBio
    phone := phone.getD p.phone
    countryCode := countryCode.getD p.countryCode
    isGstRegistered := match gst with | some g => g.isGstRegistered | none => p.isGstRegistered
    gstNumber := match gst with | some g => g.gstNumber | none => p.gstNumber
    gstLegalName := match gst with | some g => g.gstLegalName | none => p.gstLegalName
    gstStateCode := match gst with | some g => g.gstStateCode | none => p.gstStateCode
    gstBillingAddress := match gst with | some g => g.gstBillingAddress | none => p.gstBillingAddress
    pincode := match gst with | some g => g.pincode | none => p.pincode }

end Profile

namespace Profile

/-- `Object.keys(adminProfileUpdateData).length > 0`: some profile column staged. -/
def ownerHasProfileChanges (photoUrl preferredLanguage : Option String)
    (shortBio : Option (Option String)) (phone countryCode : Option String)
    (gst : Option GstSet) : Bool :=
  photoUrl.isSome || preferredLanguage.isSome || shortBio.isSome ||
    phone.isSome || countryCode.isSome || gst.isSome

/-- Step 10 of the owner update: commit `adminUpdateData` (only `fullName` is
ever staged there) and `adminProfileUpdateData`, each only when nonempty. -/
def ownerApplyStagedWrites (db1 : OwnerDB) (adminId : String)
    (fullName photoUrl preferredLanguage : Option String)
    (shortBio : Option (Option String)) (phone countryCode : Option String)
    (gst : Option GstSet) : OwnerDB :=
  let db2 := if fullName.isSome then
      updateAdminRow db1 adminId (fun a => { a with fullName := fullName.getD a.fullName })
    else db1
  if ownerHasProfileChanges photoUrl preferredLanguage shortBio phone countryCode gst then
    updateAdminProfileRow db2 adminId
      (applyAdminProfileUpdate photoUrl preferredLanguage shortBio phone countryCode gst)
  else db2

/-- Step 11 of the owner update: re-fetch the owner with profile and build the
service result. -/
def ownerFinalize (db3 : OwnerDB) (adminId : String)
    (emailChangeLink : Option OwnerEmailChangeToken) (phoneChanged : Bool) :
    Except AppError (OwnerDB × OwnerUpdateResult) :=
  match findAdmin db3 adminId with
  | some updatedAdmin =>
      Except.ok (db3,
        { owner := updatedAdmin, profile := findAdminProfile db3 adminId,
          emailChangeLink := emailChangeLink, phoneChanged := phoneChanged })
  | none => Except.error ⟨500, "Owner disappeared during update. Please try again"⟩

/-- `UpdateOwnerProfileService` (`OwnerProfileService.ts`): one atomic update of
an owner identity and its profile.  Staging follows the source order: guards,
load, change decisions, the email-XOR-phone rule, field staging, phone
uniqueness, country code, GST block, email-change initiation (version bump +
token mint, the email column itself untouched), the no-changes guard, the
writes, and the final re-read. -/
def UpdateOwnerProfileService (secretConfigured : Bool) (db : OwnerDB)
    (d : OwnerProfileUpdateData) : Except AppError (OwnerDB × OwnerUpdateResult) := do
  failIf (d.adminId == "") ⟨400, "Owner ID is required"⟩
  let adminId := d.adminId.jsTrim
  let some admin := findAdmin db adminId
    | Except.error ⟨404, "Owner not found"⟩
  let some profile := findAdminProfile db adminId
    | Except.error ⟨404, "Owner profile not found. Please create profile first."⟩
  let currentEmail := admin.email
  let currentPhone := profile.phone
  let wantsEmailChange :=
    match d.email with
    | some (some e) => e.jsTrim != "" && e.jsTrim != currentEmail
    | _ => false
  let (decodedPhone, wantsPhoneChange) ←
    decodeUpdatePhone secretConfigured d.phoneVerificationToken currentPhone
  failIf (wantsEmailChange && wantsPhoneChange)
    ⟨400, "You can update either email or phone at a time, not both"⟩
  let fullNameStaged ← stagedFullName d.fullName
  let photoUrlStaged ← stagedPhotoUrl d.photoUrl
  let preferredLanguageStaged := stagedPreferredLanguage d.preferredLanguage
  let shortBioStaged := stagedShortBio d.shortBio
  let phoneStaged ←
    if wantsPhoneChange then
      match decodedPhone with
      | none => Except.error ⟨400, "Phone number is not verified - Please verify first before update."⟩
      | some newPhone =>
          if (findOtherAdminProfileByPhone db newPhone adminId).isSome then
            Except.error ⟨409, "Phone number already in use by another owner"⟩
          else Except.ok (some newPhone)
    else Except.ok (none : Option String)
  let countryCodeStaged ← stagedCountryCode d.countryCode
  let gstStaged ← stagedGst profile d
  let emailStaged ←
    if wantsEmailChange then
      match d.email with
      | some (some e) =>
          if e == "" then Except.error ⟨400, "Email is required"⟩
          else if !isEmailFormat e.jsTrim then Except.error ⟨400, "Invalid email format"⟩
          else if (findOtherAdminByEmail db e.jsTrim adminId).isSome then
            Except.error ⟨409, "Email already in use"⟩
          else if !admin.isActive then
            Except.error ⟨403, "Cannot update email. Account must be active to change email address"⟩
          else Except.ok (some e.jsTrim)
      | _ => Except.error ⟨400, "Email is required"⟩
    else Except.ok (none : Option String)
  -- step 8: bump `emailVerifyVersion` and mint the token; `newEmail` is NOT
  -- written to the admin row here.
  let (db1, emailChangeLink) :=
    match emailStaged with
    | some trimmedEmail =>
        (updateAdminRow db adminId
            (fun a => { a with emailVerifyVersion := a.emailVerifyVersion + 1 }),
         some (emailChangeToken
            { ownerId := some adminId, adminId := none, newEmail := trimmedEmail,
              oldEmail := admin.email, version := some (admin.emailVerifyVersion + 1) }))
    | none => (db, none)
  failIf (!fullNameStaged.isSome &&
      !(ownerHasProfileChanges photoUrlStaged preferredLanguageStaged shortBioStaged
        phoneStaged countryCodeStaged gstStaged) &&
      !wantsEmailChange && !wantsPhoneChange)
    ⟨400, "No changes provided to update"⟩
  let db3 := ownerApplyStagedWrites db1 adminId fullNameStaged photoUrlStaged
    preferredLanguageStaged shortBioStaged phoneStaged countryCodeStaged gstStaged
  ownerFinalize db3 adminId emailChangeLink wantsPhoneChange

/-- `prisma.$transaction` semantics around `UpdateOwnerProfileService`: if the
callback throws, every staged write is rolled back and the store keeps its
pre-call contents. -/
def runOwnerUpdate (secretConfigured : Bool) (db : OwnerDB)
    (d : OwnerProfileUpdateData) : OwnerDB × Except AppError OwnerUpdateResult :=
  match UpdateOwnerProfileService secretConfigured db d with
  | .ok (db', r) => (db', .ok r)
  | .error e => (db, .error e)

/-! ### Owner email-change confirmation (`verifyEmailChangeTokenService`) -/

/-- Result of a successful email-change confirmation. -/
structure OwnerConfirmResult where
  owner : Admin
  profile : Option AdminProfile
  emailChanged : Bool
deriving Repr, DecidableEq

/-- The `BadRequest: StaleLink` error of the confirmation flows. -/
def staleLinkErr : AppError :=
  ⟨400, "This email change link is no longer valid. Please request a new link"⟩

/-- Step 5 tail of the owner confirmation: re-fetch and return the owner. -/
def ownerConfirmFinalize (db1 : OwnerDB) (adminId : String) :
    Except AppError (OwnerDB × OwnerConfirmResult) :=
  match findAdmin db1 adminId with
  | some finalOwner =>
      Except.ok (db1,
        { owner := finalOwner, profile := findAdminProfile db1 adminId, emailChanged := true })
  | none => Except.error ⟨500, "Owner disappeared during email verification. Please try again"⟩

/-- `verifyEmailChangeTokenService` (`OwnerProfileService.ts`): decode the
token (401 on signature/expiry failure), resolve the owner id, then inside one
transaction check the version stamp, the old email, and uniqueness of the new
email before applying the swap and bumping the version again. -/
def verifyEmailChangeTokenService (db : OwnerDB)
    (token : Option OwnerEmailChangeToken) :
    Except AppError (OwnerDB × OwnerConfirmResult) := do
  let some tok := token | Except.error ⟨400, "Email change token is required"⟩
  let payload ←
    match jwtVerify tok with
    | .ok p => Except.ok p
    | .error .expired => Except.error ⟨401, "Token expired"⟩
    | .error .malformed => Except.error ⟨401, "Invalid token"⟩
  let some adminId := jsStrOr payload.ownerId payload.adminId
    | Except.error ⟨400, "Invalid email change token payload. Please request a new link"⟩
  failIf (payload.newEmail == "" || payload.oldEmail == "")
    ⟨400, "Invalid email change token payload. Please request a new link"⟩
  let some admin := findAdmin db adminId
    | Except.error ⟨404, "Owner not found"⟩
  let versionOk := match payload.version with
    | some v => admin.emailVerifyVersion == v
    | none => false
  failIf (!versionOk) staleLinkErr
  failIf (admin.email != payload.oldEmail)
    ⟨400, "Email has already been changed or does not match the email change link"⟩
  failIf (findOtherAdminByEmail db payload.newEmail adminId).isSome
    ⟨409, "Email already in use by another owner. Please use a different email"⟩
  ownerConfirmFinalize
    (updateAdminRow db adminId (fun a =>
      { a with email := payload.newEmail, emailVerifyVersion := a.emailVerifyVersion + 1 }))
    adminId

/-- `prisma.$transaction` semantics around `verifyEmailChangeTokenService`. -/
def runOwnerConfirm (db : OwnerDB) (token : Option OwnerEmailChangeToken) :
    OwnerDB × Except AppError OwnerConfirmResult :=
  match verifyEmailChangeTokenService db token with
  | .ok (db', r) => (db', .ok r)
  | .error e => (db, .error e)

end Profile

namespace Profile

/-! ### Customer data model -/

/-- The `Customer` identity row. -/
structure Customer where
  id : String
  fullName : String
  email : String
  pendingEmail : Option String
  isActive : Bool
  isProfileComplete : Bool
  emailVerifyVersion : Nat
deriving Repr, DecidableEq

/-- The `CustomerProfile` row (1:1 with `Customer` via `customerId`). -/
structure CustomerProfile where
  customerId : String
  fullName : String
  photoUrl : String
  phone : String
  email : Option String
  address : Option String
deriving Repr, DecidableEq

/-- The customer-side store. -/
structure CustomerDB where
  customers : List Customer
  customerProfiles : List CustomerProfile
deriving Repr, DecidableEq

/-- `tx.customer.findUnique({ where: { id } })`. -/
def findCustomer (db : CustomerDB) (id : String) : Option Customer :=
  db.customers.find? (fun c => c.id == id)

/-- `tx.customerProfile.findUnique({ where: { customerId } })` (also the
`CustomerProfile` relation included with the customer row). -/
def findCustomerProfile (db : CustomerDB) (customerId : String) : Option CustomerProfile :=
  db.customerProfiles.find? (fun p => p.customerId == customerId)

/-- `tx.customerProfile.findFirst({ where: { phone, NOT: { customerId } } })`. -/
def findOtherCustomerProfileByPhone (db : CustomerDB) (phone customerId : String) :
    Option CustomerProfile :=
  db.customerProfiles.find? (fun p => p.phone == phone && !(p.customerId == customerId))

/-- `tx.customer.findFirst({ where: { OR: [{email}, {pendingEmail: email}], NOT: { id } } })`. -/
def findOtherCustomerByEmailOrPending (db : CustomerDB) (email customerId : String) :
    Option Customer :=
  db.customers.find? (fun c =>
    (c.email == email || c.pendingEmail == some email) && !(c.id == customerId))

/-- `tx.customerProfile.findFirst({ where: { email, NOT: { customerId } } })`. -/
def findOtherCustomerProfileByEmail (db : CustomerDB) (email customerId : String) :
    Option CustomerProfile :=
  db.customerProfiles.find? (fun p => p.email == some email && !(p.customerId == customerId))

/-- `tx.customer.update({ where: { id }, data })`. -/
def updateCustomerRow (db : CustomerDB) (id : String) (f : Customer → Customer) : CustomerDB :=
  { db with customers := db.customers.map (fun c => if c.id == id then f c else c) }

/-- `tx.customerProfile.update({ where: { customerId }, data })`. -/
def updateCustomerProfileRow (db : CustomerDB) (customerId : String)
    (f : CustomerProfile → CustomerProfile) : CustomerDB :=
  { db with customerProfiles :=
      db.customerProfiles.map (fun p => if p.customerId == customerId then f p else p) }

/-- Payload signed into the customer email-change token:
`{ customerId, newEmail, oldEmail, version }`. -/
structure CustomerEmailChangePayload where
  customerId : String
  newEmail : String
  oldEmail : String
  version : Option Nat
deriving Repr, DecidableEq

abbrev CustomerEmailChangeToken := SignedToken CustomerEmailChangePayload

/-- Modelled from the spec: the customer-side use of the missing
`emailChangeToken` helper as a signer (§4.3/§6): a freshly minted token has a
valid signature and is unexpired. -/
def custEmailChangeToken (p : CustomerEmailChangePayload) : CustomerEmailChangeToken :=
  ⟨true, false, p⟩

/-- Request body of `CustomerProfileUpdateService`.  Unlike the owner variant,
the phone arrives as a raw string field: there is no verification token in this
request type. -/
structure CustomerProfileUpdateInput where
  customerId : String
  fullName : Option String := none
  photoUrl : Option String := none
  phone : Option String := none
  address : Option (Option String) := none
  email : Option String := none
deriving Repr, DecidableEq

/-- Result of `CustomerProfileUpdateService`. -/
structure CustomerUpdateResult where
  customer : Customer
  profile : Option CustomerProfile
  emailChangeLink : Option CustomerEmailChangeToken
  phoneOtpSent : Bool
deriving Repr, DecidableEq

/-- `Object.keys(profileUpdateData).length > 0` for the customer update. -/
def custHasProfileChanges (fullName photoUrl : Option String)
    (address : Option (Option String)) (phone : Option String) : Bool :=
  fullName.isSome || photoUrl.isSome || address.isSome || phone.isSome

/-- Step 10 of the customer update: commit `customerUpdateData` and
`profileUpdateData` (the latter fails `404` when no profile row exists). -/
def custApplyStagedWrites (db1 : CustomerDB) (customerId : String) (hasProfile : Bool)
    (custFullName profFullName photoUrl : Option String)
    (address : Option (Option String)) (phone : Option String) :
    Except AppError CustomerDB :=
  let db2 := if custFullName.isSome then
      updateCustomerRow db1 customerId
        (fun c => { c with fullName := custFullName.getD c.fullName })
    else db1
  if custHasProfileChanges profFullName photoUrl address phone then
    if hasProfile then
      Except.ok (updateCustomerProfileRow db2 customerId (fun p =>
        { p with
          fullName := profFullName.getD p.fullName
          photoUrl := photoUrl.getD p.photoUrl
          address := match address with | some v => v | none => p.address
          phone := phone.getD p.phone }))
    else Except.error ⟨404, "Customer profile not found. Please create profile first."⟩
  else Except.ok db2

/-- Step 11 of the customer update: re-fetch and build the result. -/
def custFinalize (db3 : CustomerDB) (customerId : String)
    (emailChangeLink : Option CustomerEmailChangeToken) (phoneOtpSent : Bool) :
    Except AppError (CustomerDB × CustomerUpdateResult) :=
  match findCustomer db3 customerId with
  | some updatedCustomer =>
      Except.ok (db3,
        { customer := updatedCustomer, profile := findCustomerProfile db3 customerId,
          emailChangeLink := emailChangeLink, phoneOtpSent := phoneOtpSent })
  | none => Except.error ⟨500, "Customer disappeared during update. Please try again"⟩

/-- `CustomerProfileUpdateService` (`CustomerProfileUpdateService.ts`): the
customer-variant update.  The phone is compared and staged verbatim from the
client-supplied `phone` field (the OTP hook in the source is commented out);
the email path mirrors the owner variant (uniqueness over `Customer.email`,
`Customer.pendingEmail` and `CustomerProfile.email`, active-account guard,
version bump, token mint — no direct email write). -/
def CustomerProfileUpdateService (db : CustomerDB) (d : CustomerProfileUpdateInput) :
    Except AppError (CustomerDB × CustomerUpdateResult) := do
  failIf (d.customerId == "") ⟨400, "Customer ID is required"⟩
  let customerId := d.customerId
  let some customer := findCustomer db customerId
    | Except.error ⟨404, "Customer not found"⟩
  let profileOpt := findCustomerProfile db customerId
  let currentEmail := customer.email
  let currentPhone : Option String := profileOpt.map (fun p => p.phone)
  let wantsEmailChange := match d.email with
    | some e => e != currentEmail
    | none => false
  let wantsPhoneChange := match d.phone with
    | some p => some p != currentPhone
    | none => false
  failIf (wantsEmailChange && wantsPhoneChange)
    ⟨400, "You can update either email or phone at a time, not both"⟩
  let custFullNameStaged := d.fullName
  let profFullNameStaged := d.fullName
  let photoUrlStaged := d.photoUrl
  let addressStaged := d.address
  let phoneStaged ←
    if wantsPhoneChange then
      match d.phone with
      | some p =>
          if p == "" then Except.error ⟨400, "Phone number is required"⟩
          else if (findOtherCustomerProfileByPhone db p customerId).isSome then
            Except.error ⟨409, "Phone number already in use by another customer"⟩
          else Except.ok (some p)
      | none => Except.error ⟨400, "Phone number is required"⟩
    else Except.ok (none : Option String)
  let phoneOtpSent := wantsPhoneChange
  let (db1, emailChangeLink) ←
    if wantsEmailChange then
      match d.email with
      | some email =>
          if email == "" then Except.error ⟨400, "Email is required"⟩
          else if (findOtherCustomerByEmailOrPending db email customerId).isSome ||
              (findOtherCustomerProfileByEmail db email customerId).isSome then
            Except.error ⟨409, "Email already in use by another customer"⟩
          else if !customer.isActive then
            Except.error ⟨403, "Cannot update email. Account must be active to change email address"⟩
          else
            Except.ok
              (updateCustomerRow db customerId
                 (fun c => { c with emailVerifyVersion := c.emailVerifyVersion + 1 }),
               some (custEmailChangeToken
                 { customerId := customerId, newEmail := email, oldEmail := customer.email,
                   version := some (customer.emailVerifyVersion + 1) }))
      | none => Except.error ⟨400, "Email is required"⟩
    else Except.ok (db, (none : Option CustomerEmailChangeToken))
  failIf (!custFullNameStaged.isSome &&
      !(custHasProfileChanges profFullNameStaged photoUrlStaged addressStaged phoneStaged) &&
      !wantsEmailChange && !wantsPhoneChange)
    ⟨400, "No changes provided to update"⟩
  let db3 ← custApplyStagedWrites db1 customerId profileOpt.isSome custFullNameStaged
    profFullNameStaged photoUrlStaged addressStaged phoneStaged
  custFinalize db3 customerId emailChangeLink phoneOtpSent

/-- `prisma.$transaction` semantics around `CustomerProfileUpdateService`. -/
def runCustomerUpdate (db : CustomerDB) (d : CustomerProfileUpdateInput) :
    CustomerDB × Except AppError CustomerUpdateResult :=
  match CustomerProfileUpdateService db d with
  | .ok (db', r) => (db', .ok r)
  | .error e => (db, .error e)

/-- Result of a successful customer email-change confirmation. -/
structure CustomerConfirmResult where
  customer : Customer
  profile : Option CustomerProfile
  emailChanged : Bool
deriving Repr, DecidableEq

/-- The customer-variant decode failure: **status 400**, thrown for any token
whose signature or expiry check fails. -/
def custEmailDecodeErr : AppError :=
  ⟨400, "Invalid or expired email change token. Please request a new link"⟩

/-- Step 6 of the customer confirmation: set the new email, clear
`pendingEmail`, bump the version, and sync `CustomerProfile.email` when the
profile row exists. -/
def custConfirmApplyWrites (db : CustomerDB) (customerId newEmail : String)
    (hasProfile : Bool) : CustomerDB :=
  let db1 := updateCustomerRow db customerId (fun c =>
    { c with email := newEmail, pendingEmail := none,
             emailVerifyVersion := c.emailVerifyVersion + 1 })
  if hasProfile then
    updateCustomerProfileRow db1 customerId (fun p => { p with email := some newEmail })
  else db1

/-- Tail of the customer confirmation: re-fetch and return. -/
def custConfirmFinalize (db2 : CustomerDB) (customerId : String) :
    Except AppError (CustomerDB × CustomerConfirmResult) :=
  match findCustomer db2 customerId with
  | some finalCustomer =>
      Except.ok (db2,
        { customer := finalCustomer, profile := findCustomerProfile db2 customerId,
          emailChanged := true })
  | none => Except.error ⟨500, "Customer disappeared during email verification. Please try again"⟩

/-- `VerifyCustomerEmailChangeService` (`CustomerProfileUpdateService.ts`).
The source decodes the link with the missing `emailChangeToken` helper
(modelled from the spec as the verify half of the §6 signer/verifier
interface) and maps *any* decode failure to the single 400 error
`custEmailDecodeErr`.  On success it writes `email = newEmail`, clears
`pendingEmail`, bumps `emailVerifyVersion`, and syncs `CustomerProfile.email`
when a profile row exists. -/
def VerifyCustomerEmailChangeService (db : CustomerDB)
    (token : Option CustomerEmailChangeToken) :
    Except AppError (CustomerDB × CustomerConfirmResult) := do
  let some tok := token | Except.error ⟨400, "Email change token is required"⟩
  let payload ←
    match jwtVerify tok with
    | .ok p => Except.ok p
    | .error _ => Except.error custEmailDecodeErr
  failIf (payload.customerId == "" || payload.newEmail == "" || payload.oldEmail == "")
    ⟨400, "Invalid email change token payload. Please request a new link"⟩
  let customerId := payload.customerId
  let newEmail := payload.newEmail
  let some customer := findCustomer db customerId
    | Except.error ⟨404, "Customer not found"⟩
  let versionOk := match payload.version with
    | some v => customer.emailVerifyVersion == v
    | none => false
  failIf (!versionOk) staleLinkErr
  failIf (customer.email != payload.oldEmail)
    ⟨400, "Email has already been changed or does not match the email change link"⟩
  failIf ((findOtherCustomerByEmailOrPending db newEmail customerId).isSome ||
      (findOtherCustomerProfileByEmail db newEmail customerId).isSome)
    ⟨409, "Email already in use by another customer. Please use a different email"⟩
  custConfirmFinalize
    (custConfirmApplyWrites db customerId newEmail (findCustomerProfile db customerId).isSome)
    customerId

/-- `prisma.$transaction` semantics around `VerifyCustomerEmailChangeService`. -/
def runCustomerConfirm (db : CustomerDB) (token : Option CustomerEmailChangeToken) :
    CustomerDB × Except AppError CustomerConfirmResult :=
  match VerifyCustomerEmailChangeService db token with
  | .ok (db', r) => (db', .ok r)
  | .error e => (db, .error e)

end Profile

namespace Profile

/-! ### Definitions used by the theorems (witness data, abbreviations) -/

/-- The version-bump write of email-change initiation (step 8). -/
def bumpVersion (a : Admin) : Admin :=
  { a with emailVerifyVersion := a.emailVerifyVersion + 1 }

/-- Sample owner identity used to instantiate the theorems. -/
def wAdmin : Admin :=
  ⟨"A", "Al Owner", "a@x.com", true, true, 0⟩

/-- Sample owner profile row. -/
def wProfile : AdminProfile :=
  ⟨"A", "919812345678", "+91", "http://p/x.png", "ENGLISH", some "hi",
   false, none, none, none, none, none⟩

/-- Sample owner store. -/
def wOwnerDB : OwnerDB := ⟨[wAdmin], [wProfile]⟩

/-- Sample customer identity. -/
def wCustomer : Customer :=
  ⟨"C", "Cara", "c@x.com", none, true, true, 0⟩

/-- Sample customer profile row. -/
def wCustProfile : CustomerProfile :=
  ⟨"C", "Cara", "http://p/c.png", "919900112233", some "c@x.com", none⟩

/-- Sample customer store. -/
def wCustDB : CustomerDB := ⟨[wCustomer], [wCustProfile]⟩

/-- A verified, well-signed phone-verification token. -/
def wPhoneTok : PhoneVerificationToken := ⟨true, false, ⟨true, "919888811111"⟩⟩

/-- A well-signed but expired phone-verification token. -/
def wExpPhoneTok : PhoneVerificationToken := ⟨true, true, ⟨true, "919888811111"⟩⟩

/-- A phone-verification token with a bad signature. -/
def wBadPhoneTok : PhoneVerificationToken := ⟨false, false, ⟨true, "919888811111"⟩⟩

/-- An email-change token stamped with a version that is not the live one. -/
def wStaleTok : OwnerEmailChangeToken :=
  ⟨true, false, ⟨some "A", none, "b@x.com", "a@x.com", some 5⟩⟩

/-- A fresh email-change token matching `wAdmin` (version 0). -/
def wTok2 : OwnerEmailChangeToken :=
  ⟨true, false, ⟨some "A", none, "b@x.com", "a@x.com", some 0⟩⟩

/-- `wAdmin` after a successful confirmation of `wTok2`. -/
def wAdmin1 : Admin := ⟨"A", "Al Owner", "b@x.com", true, true, 1⟩

/-- The store after confirming `wTok2` on `wOwnerDB`. -/
def wOwnerDB1 : OwnerDB := ⟨[wAdmin1], [wProfile]⟩

/-- The confirmation result for `wTok2` on `wOwnerDB`. -/
def wR2 : OwnerConfirmResult := ⟨wAdmin1, some wProfile, true⟩

/-- A well-signed but expired owner email-change token. -/
def wExpOwnerTok : OwnerEmailChangeToken :=
  ⟨true, true, ⟨some "A", none, "b@x.com", "a@x.com", some 0⟩⟩

/-- An owner email-change token with a bad signature. -/
def wBadOwnerTok : OwnerEmailChangeToken :=
  ⟨false, false, ⟨some "A", none, "b@x.com", "a@x.com", some 0⟩⟩

/-- A customer email-change token with a bad signature. -/
def wBadCustTok : CustomerEmailChangeToken :=
  ⟨false, false, ⟨"C", "d@x.com", "c@x.com", some 0⟩⟩

/-- A fresh customer email-change token matching `wCustomer` (version 0). -/
def wCustTok : CustomerEmailChangeToken :=
  ⟨true, false, ⟨"C", "d@x.com", "c@x.com", some 0⟩⟩

/-- An owner email-change token whose version matches the live value but whose
`oldEmail` does not match the stored email. -/
def wC9Tok : OwnerEmailChangeToken :=
  ⟨true, false, ⟨some "A", none, "b@x.com", "wrong@x.com", some 0⟩⟩

/-- `wCustomer` after a successful confirmation of `wCustTok`. -/
def wCust10 : Customer := ⟨"C", "Cara", "d@x.com", none, true, true, 1⟩

/-- `wCustProfile` after a successful confirmation of `wCustTok`. -/
def wCustProf10 : CustomerProfile :=
  ⟨"C", "Cara", "http://p/c.png", "919900112233", some "d@x.com", none⟩

/-- The customer store after confirming `wCustTok` on `wCustDB`. -/
def wCustDB10 : CustomerDB := ⟨[wCust10], [wCustProf10]⟩

/-- The confirmation result for `wCustTok` on `wCustDB`. -/
def wCR10 : CustomerConfirmResult := ⟨wCust10, some wCustProf10, true⟩

/-- Owner update input that changes the phone through the verification gate. -/
def wC4OwnIn : OwnerProfileUpdateData :=
  { adminId := "A", phoneVerificationToken := some (some wPhoneTok) }

/-- `wProfile` after the gate-verified phone change of `wC4OwnIn`. -/
def wC4Prof : AdminProfile :=
  ⟨"A", "919888811111", "+91", "http://p/x.png", "ENGLISH", some "hi",
   false, none, none, none, none, none⟩

/-- The owner store after running `wC4OwnIn`. -/
def wC4Db : OwnerDB := ⟨[wAdmin], [wC4Prof]⟩

/-- The owner update result of `wC4OwnIn`. -/
def wC4R : OwnerUpdateResult := ⟨wAdmin, some wC4Prof, none, true⟩

/-- Customer update input supplying a raw phone value. -/
def wC4In : CustomerProfileUpdateInput := { customerId := "C", phone := some "+1 555 0100" }

/-- `wCustProfile` after the raw phone write of `wC4In`. -/
def wC4CustProf : CustomerProfile :=
  ⟨"C", "Cara", "http://p/c.png", "+1 555 0100", some "c@x.com", none⟩

/-- The customer store after running `wC4In`. -/
def wC4CustDb : CustomerDB := ⟨[wCustomer], [wC4CustProf]⟩

/-- The customer update result of `wC4In`. -/
def wC4CustR : CustomerUpdateResult := ⟨wCustomer, some wC4CustProf, none, true⟩

/-- Owner update input touching only the profile field `fullName`. -/
def wC5OwnIn : OwnerProfileUpdateData := { adminId := "A", fullName := some (some "New Name") }

/-- `wAdmin` after the `fullName`-only update of `wC5OwnIn`. -/
def wC5Admin : Admin := ⟨"A", "New Name", "a@x.com", true, true, 0⟩

/-- The owner store after running `wC5OwnIn`. -/
def wC5Db : OwnerDB := ⟨[wC5Admin], [wProfile]⟩

/-- The owner update result of `wC5OwnIn`. -/
def wC5R : OwnerUpdateResult := ⟨wC5Admin, some wProfile, none, false⟩

/-- Customer update input touching only the profile field `fullName`. -/
def wC5CustIn : CustomerProfileUpdateInput := { customerId := "C", fullName := some "New C" }

/-- `wCustomer` after the `fullName`-only update of `wC5CustIn`. -/
def wC5Cust : Customer := ⟨"C", "New C", "c@x.com", none, true, true, 0⟩

/-- `wCustProfile` after the `fullName`-only update of `wC5CustIn`. -/
def wC5CustProf : CustomerProfile :=
  ⟨"C", "New C", "http://p/c.png", "919900112233", some "c@x.com", none⟩

/-- The customer store after running `wC5CustIn`. -/
def wC5CustDb : CustomerDB := ⟨[wC5Cust], [wC5CustProf]⟩

/-- The customer update result of `wC5CustIn`. -/
def wC5CustR : CustomerUpdateResult := ⟨wC5Cust, some wC5CustProf, none, false⟩

end Profile

namespace Profile

/-! ### Supporting lemmas -/

theorem bind_def {α β : Type} (x : Except AppError α) (f : α → Except AppError β) :
    (x >>= f) = Except.bind x f := rfl

theorem bind_ok_red {α β : Type} (a : α) (f : α → Except AppError β) :
    (Except.ok a >>= f) = f a := rfl

theorem bind_err_red {α β : Type} (e : AppError) (f : α → Except AppError β) :
    ((Except.error e : Except AppError α) >>= f) = Except.error e := rfl

theorem pure_red {α : Type} (a : α) : (pure a : Except AppError α) = Except.ok a := rfl

theorem find?_map_comm {α : Type} (g : α → α) (p : α → Bool) (l : List α)
    (h : ∀ a, p (g a) = p a) : (l.map g).find? p = (l.find? p).map g := by
  induction l with
  | nil => rfl
  | cons a t ih =>
      by_cases hpa : p a = true
      · simp [List.find?_cons, h a, hpa]
      · simp [List.find?_cons, h a, hpa, ih]

theorem findAdmin_updateAdminRow (db : OwnerDB) (id id' : String) (f : Admin → Admin)
    (hid : ∀ a, (f a).id = a.id) :
    findAdmin (updateAdminRow db id f) id' =
      (findAdmin db id').map (fun a => if a.id == id then f a else a) := by
  unfold findAdmin updateAdminRow
  exact find?_map_comm _ _ _ (fun a => by by_cases h : a.id = id <;> simp [h, hid a])

theorem findOtherAdminByEmail_updateAdminRow (db : OwnerDB) (e x id : String)
    (f : Admin → Admin) (hid : ∀ a, (f a).id = a.id)
    (hemail : ∀ a, (f a).email = a.email) :
    findOtherAdminByEmail (updateAdminRow db id f) e x =
      (findOtherAdminByEmail db e x).map (fun a => if a.id == id then f a else a) := by
  unfold findOtherAdminByEmail updateAdminRow
  exact find?_map_comm _ _ _
    (fun a => by by_cases h : a.id = id <;> simp [h, hid a, hemail a])

theorem findAdminProfile_updateAdminRow (db : OwnerDB) (id x : String) (f : Admin → Admin) :
    findAdminProfile (updateAdminRow db id f) x = findAdminProfile db x := rfl

theorem findAdmin_updateAdminProfileRow (db : OwnerDB) (id x : String)
    (f : AdminProfile → AdminProfile) :
    findAdmin (updateAdminProfileRow db id f) x = findAdmin db x := rfl

theorem findAdminProfile_updateAdminProfileRow (db : OwnerDB) (id x : String)
    (f : AdminProfile → AdminProfile) (hid : ∀ p, (f p).adminId = p.adminId) :
    findAdminProfile (updateAdminProfileRow db id f) x =
      (findAdminProfile db x).map (fun p => if p.adminId == id then f p else p) := by
  unfold findAdminProfile updateAdminProfileRow
  exact find?_map_comm _ _ _ (fun p => by by_cases h : p.adminId = id <;> simp [h, hid p])

theorem mapField_updateAdminRow {γ : Type} (db : OwnerDB) (id : String) (f : Admin → Admin)
    (F : Admin → γ) (hid : ∀ a, (f a).id = a.id) (hF : ∀ a, F (f a) = F a) :
    ∀ x, (findAdmin (updateAdminRow db id f) x).map F = (findAdmin db x).map F := by
  intro x
  rw [findAdmin_updateAdminRow db id x f hid]
  cases h : findAdmin db x with
  | none => rfl
  | some a => by_cases ha : a.id = id <;> simp [ha, hF a]

theorem mapField_updateAdminProfileRow {γ : Type} (db : OwnerDB) (id : String)
    (f : AdminProfile → AdminProfile) (F : AdminProfile → γ)
    (hid : ∀ p, (f p).adminId = p.adminId) (hF : ∀ p, F (f p) = F p) :
    ∀ x, (findAdminProfile (updateAdminProfileRow db id f) x).map F =
      (findAdminProfile db x).map F := by
  intro x
  rw [findAdminProfile_updateAdminProfileRow db id x f hid]
  cases h : findAdminProfile db x with
  | none => rfl
  | some p => by_cases hp : p.adminId = id <;> simp [hp, hF p]

theorem mapVer_bump (db : OwnerDB) (id : String) :
    ∀ x, (findAdmin (updateAdminRow db id bumpVersion) x).map (fun a => a.emailVerifyVersion) =
        (findAdmin db x).map (fun a => a.emailVerifyVersion) ∨
      (findAdmin (updateAdminRow db id bumpVersion) x).map (fun a => a.emailVerifyVersion) =
        (findAdmin db x).map (fun a => a.emailVerifyVersion + 1) := by
  intro x
  rw [findAdmin_updateAdminRow db id x bumpVersion (fun a => rfl)]
  cases h : findAdmin db x with
  | none => left; rfl
  | some a =>
      by_cases ha : a.id = id
      · right; simp [ha, bumpVersion]
      · left; simp [ha]

theorem find_admin_id {db : OwnerDB} {id : String} {a : Admin}
    (h : findAdmin db id = some a) : a.id = id := by
  have := List.find?_some h
  simpa using this

theorem find_adminProfile_id {db : OwnerDB} {id : String} {p : AdminProfile}
    (h : findAdminProfile db id = some p) : p.adminId = id := by
  have := List.find?_some h
  simpa using this

end Profile

namespace Profile

theorem findCustomer_updateCustomerRow (db : CustomerDB) (id id' : String)
    (f : Customer → Customer) (hid : ∀ c, (f c).id = c.id) :
    findCustomer (updateCustomerRow db id f) id' =
      (findCustomer db id').map (fun c => if c.id == id then f c else c) := by
  unfold findCustomer updateCustomerRow
  exact find?_map_comm _ _ _ (fun c => by by_cases h : c.id = id <;> simp [h, hid c])

theorem findCustomerProfile_updateCustomerRow (db : CustomerDB) (id x : String)
    (f : Customer → Customer) :
    findCustomerProfile (updateCustomerRow db id f) x = findCustomerProfile db x := rfl

theorem findCustomer_updateCustomerProfileRow (db : CustomerDB) (id x : String)
    (f : CustomerProfile → CustomerProfile) :
    findCustomer (updateCustomerProfileRow db id f) x = findCustomer db x := rfl

theorem findCustomerProfile_updateCustomerProfileRow (db : CustomerDB) (id x : String)
    (f : CustomerProfile → CustomerProfile) (hid : ∀ p, (f p).customerId = p.customerId) :
    findCustomerProfile (updateCustomerProfileRow db id f) x =
      (findCustomerProfile db x).map (fun p => if p.customerId == id then f p else p) := by
  unfold findCustomerProfile updateCustomerProfileRow
  exact find?_map_comm _ _ _ (fun p => by by_cases h : p.customerId = id <;> simp [h, hid p])

theorem mapField_updateCustomerRow {γ : Type} (db : CustomerDB) (id : String)
    (f : Customer → Customer) (F : Customer → γ)
    (hid : ∀ c, (f c).id = c.id) (hF : ∀ c, F (f c) = F c) :
    ∀ x, (findCustomer (updateCustomerRow db id f) x).map F = (findCustomer db x).map F := by
  intro x
  rw [findCustomer_updateCustomerRow db id x f hid]
  cases h : findCustomer db x with
  | none => rfl
  | some c => by_cases hc : c.id = id <;> simp [hc, hF c]

theorem mapField_updateCustomerProfileRow {γ : Type} (db : CustomerDB) (id : String)
    (f : CustomerProfile → CustomerProfile) (F : CustomerProfile → γ)
    (hid : ∀ p, (f p).customerId = p.customerId) (hF : ∀ p, F (f p) = F p) :
    ∀ x, (findCustomerProfile (updateCustomerProfileRow db id f) x).map F =
      (findCustomerProfile db x).map F := by
  intro x
  rw [findCustomerProfile_updateCustomerProfileRow db id x f hid]
  cases h : findCustomerProfile db x with
  | none => rfl
  | some p => by_cases hp : p.customerId = id <;> simp [hp, hF p]

theorem mapVer_custBump (db : CustomerDB) (id : String) (f : Customer → Customer)
    (hid : ∀ c, (f c).id = c.id)
    (hver : ∀ c, (f c).emailVerifyVersion = c.emailVerifyVersion + 1) :
    ∀ x, (findCustomer (updateCustomerRow db id f) x).map (fun c => c.emailVerifyVersion) =
        (findCustomer db x).map (fun c => c.emailVerifyVersion) ∨
      (findCustomer (updateCustomerRow db id f) x).map (fun c => c.emailVerifyVersion) =
        (findCustomer db x).map (fun c => c.emailVerifyVersion + 1) := by
  intro x
  rw [findCustomer_updateCustomerRow db id x f hid]
  cases h : findCustomer db x with
  | none => left; rfl
  | some c =>
      by_cases hc : c.id = id
      · right; simp [hc, hver c]
      · left; simp [hc]

theorem find_customer_id {db : CustomerDB} {id : String} {c : Customer}
    (h : findCustomer db id = some c) : c.id = id := by
  have := List.find?_some h
  simpa using this

theorem find_custProfile_id {db : CustomerDB} {id : String} {p : CustomerProfile}
    (h : findCustomerProfile db id = some p) : p.customerId = id := by
  have := List.find?_some h
  simpa using this

theorem findOtherCustomer_updateCustomerRow (db : CustomerDB) (e x id : String)
    (f : Customer → Customer) (hid : ∀ c, (f c).id = c.id)
    (hemail : ∀ c, (f c).email = c.email)
    (hpend : ∀ c, (f c).pendingEmail = c.pendingEmail) :
    findOtherCustomerByEmailOrPending (updateCustomerRow db id f) e x =
      (findOtherCustomerByEmailOrPending db e x).map (fun c => if c.id == id then f c else c) := by
  unfold findOtherCustomerByEmailOrPending updateCustomerRow
  exact find?_map_comm _ _ _
    (fun c => by by_cases h : c.id = id <;> simp [h, hid c, hemail c, hpend c])

theorem ownerFinalize_ok_inv {db3 : OwnerDB} {adminId : String}
    {link : Option OwnerEmailChangeToken} {pc : Bool} {db' : OwnerDB} {r : OwnerUpdateResult}
    (h : ownerFinalize db3 adminId link pc = .ok (db', r)) :
    db' = db3 ∧ r.emailChangeLink = link ∧ r.phoneChanged = pc ∧
      findAdmin db3 adminId = some r.owner := by
  unfold ownerFinalize at h
  cases hf : findAdmin db3 adminId with
  | none => rw [hf] at h; exact absurd h (by simp)
  | some a =>
      rw [hf] at h
      cases h
      simp [hf]

theorem custFinalize_ok_inv {db3 : CustomerDB} {customerId : String}
    {link : Option CustomerEmailChangeToken} {po : Bool} {db' : CustomerDB}
    {r : CustomerUpdateResult}
    (h : custFinalize db3 customerId link po = .ok (db', r)) :
    db' = db3 ∧ r.emailChangeLink = link ∧ r.phoneOtpSent = po ∧
      findCustomer db3 customerId = some r.customer := by
  unfold custFinalize at h
  cases hf : findCustomer db3 customerId with
  | none => rw [hf] at h; exact absurd h (by simp)
  | some c =>
      rw [hf] at h
      cases h
      simp [hf]

theorem ownerConfirmFinalize_ok_inv {db1 : OwnerDB} {adminId : String} {db' : OwnerDB}
    {r : OwnerConfirmResult} (h : ownerConfirmFinalize db1 adminId = .ok (db', r)) :
    db' = db1 ∧ r.emailChanged = true ∧ findAdmin db1 adminId = some r.owner := by
  unfold ownerConfirmFinalize at h
  cases hf : findAdmin db1 adminId with
  | none => rw [hf] at h; exact absurd h (by simp)
  | some a =>
      rw [hf] at h
      cases h
      simp [hf]

theorem custConfirmFinalize_ok_inv {db2 : CustomerDB} {customerId : String} {db' : CustomerDB}
    {r : CustomerConfirmResult} (h : custConfirmFinalize db2 customerId = .ok (db', r)) :
    db' = db2 ∧ r.emailChanged = true ∧ findCustomer db2 customerId = some r.customer := by
  unfold custConfirmFinalize at h
  cases hf : findCustomer db2 customerId with
  | none => rw [hf] at h; exact absurd h (by simp)
  | some c =>
      rw [hf] at h
      cases h
      simp [hf]

end Profile

namespace Profile

theorem ownerApply_email_frame (db1 : OwnerDB) (A : String) (fn pu pl : Option String)
    (sb : Option (Option String)) (ph cc : Option String) (g : Option GstSet) :
    ∀ x, (findAdmin (ownerApplyStagedWrites db1 A fn pu pl sb ph cc g) x).map
        (fun a => a.email) = (findAdmin db1 x).map (fun a => a.email) := by
  intro x
  have hm := mapField_updateAdminRow db1 A (fun a => { a with fullName := fn.getD a.fullName })
    (fun a => a.email) (fun a => rfl) (fun a => rfl)
  unfold ownerApplyStagedWrites
  by_cases h1 : fn.isSome <;>
    by_cases h2 : ownerHasProfileChanges pu pl sb ph cc g <;>
      simp [h1, h2, findAdmin_updateAdminProfileRow, hm]

theorem ownerApply_version_frame (db1 : OwnerDB) (A : String) (fn pu pl : Option String)
    (sb : Option (Option String)) (ph cc : Option String) (g : Option GstSet) :
    ∀ x, (findAdmin (ownerApplyStagedWrites db1 A fn pu pl sb ph cc g) x).map
        (fun a => a.emailVerifyVersion) =
      (findAdmin db1 x).map (fun a => a.emailVerifyVersion) := by
  intro x
  have hm := mapField_updateAdminRow db1 A (fun a => { a with fullName := fn.getD a.fullName })
    (fun a => a.emailVerifyVersion) (fun a => rfl) (fun a => rfl)
  unfold ownerApplyStagedWrites
  by_cases h1 : fn.isSome <;>
    by_cases h2 : ownerHasProfileChanges pu pl sb ph cc g <;>
      simp [h1, h2, findAdmin_updateAdminProfileRow, hm]

theorem ownerApply_phone_none_frame (db1 : OwnerDB) (A : String) (fn pu pl : Option String)
    (sb : Option (Option String)) (cc : Option String) (g : Option GstSet) :
    ∀ x, (findAdminProfile (ownerApplyStagedWrites db1 A fn pu pl sb none cc g) x).map
        (fun p => p.phone) = (findAdminProfile db1 x).map (fun p => p.phone) := by
  intro x
  unfold ownerApplyStagedWrites
  by_cases h1 : fn.isSome <;>
    by_cases h2 : ownerHasProfileChanges pu pl sb none cc g <;>
      simp [h1, h2, findAdminProfile_updateAdminRow]
  all_goals {
    have hm := mapField_updateAdminProfileRow
      (if fn.isSome = true then
        updateAdminRow db1 A (fun a => { a with fullName := fn.getD a.fullName })
      else db1) A
      (applyAdminProfileUpdate pu pl sb none cc g) (fun p => p.phone)
      (fun p => rfl) (fun p => rfl)
    simp [h1, findAdminProfile_updateAdminRow] at hm
    simp [hm]
  }

theorem ownerApply_phone_some_target (db1 : OwnerDB) (A : String) (fn pu pl : Option String)
    (sb : Option (Option String)) (p0 : String) (cc : Option String) (g : Option GstSet)
    (prof1 : AdminProfile) (hfp : findAdminProfile db1 A = some prof1) :
    (findAdminProfile (ownerApplyStagedWrites db1 A fn pu pl sb (some p0) cc g) A).map
      (fun q => q.phone) = some p0 := by
  have hpid : prof1.adminId = A := find_adminProfile_id hfp
  unfold ownerApplyStagedWrites
  have hm := findAdminProfile_updateAdminProfileRow
    (if fn.isSome = true then
      updateAdminRow db1 A (fun a => { a with fullName := fn.getD a.fullName })
    else db1) A A
    (applyAdminProfileUpdate pu pl sb (some p0) cc g) (fun p => rfl)
  by_cases h1 : fn.isSome <;>
    simp [h1, findAdminProfile_updateAdminRow, ownerHasProfileChanges] at hm ⊢ <;>
      simp [hm, hfp, hpid, applyAdminProfileUpdate]

end Profile

namespace Profile

/-- Success-shape of `UpdateOwnerProfileService`: on success the store keeps
every admin email, bumps `emailVerifyVersion` by at most one, leaves every
profile phone alone unless `phoneChanged`, and when the phone did change the
stored phone is the first component of the decoded-token pair. -/
theorem ownerUpdate_ok_shape (s : Bool) (db : OwnerDB) (d : OwnerProfileUpdateData) :
    match UpdateOwnerProfileService s db d with
    | .ok (db', r) =>
        (∀ x, (findAdmin db' x).map (fun a => a.email) =
            (findAdmin db x).map (fun a => a.email)) ∧
        (∀ x, (findAdmin db' x).map (fun a => a.emailVerifyVersion) =
              (findAdmin db x).map (fun a => a.emailVerifyVersion) ∨
            (findAdmin db' x).map (fun a => a.emailVerifyVersion) =
              (findAdmin db x).map (fun a => a.emailVerifyVersion + 1)) ∧
        (r.phoneChanged = false →
            ∀ x, (findAdminProfile db' x).map (fun p => p.phone) =
              (findAdminProfile db x).map (fun p => p.phone)) ∧
        (∃ profile dp, findAdminProfile db d.adminId.jsTrim = some profile ∧
          decodeUpdatePhone s d.phoneVerificationToken profile.phone = .ok dp ∧
          r.phoneChanged = dp.2 ∧
          (dp.2 = true → ∃ p, dp.1 = some p ∧
            (findAdminProfile db' d.adminId.jsTrim).map (fun q => q.phone) = some p))
    | .error _ => True := by
  unfold UpdateOwnerProfileService
  simp only [bind_def, Except.bind, failIf]
  split
  next db' r heq =>
    split at heq
    all_goals try (exact (Except.noConfusion heq))
    split at heq
    all_goals try (exact (Except.noConfusion heq))
    split at heq
    all_goals try (exact (Except.noConfusion heq))
    rename_i hfp
    split at heq
    all_goals try (exact (Except.noConfusion heq))
    rename_i dp hdp
    split at heq
    all_goals try (exact (Except.noConfusion heq))
    split at heq
    all_goals try (exact (Except.noConfusion heq))
    split at heq
    all_goals try (exact (Except.noConfusion heq))
    split at heq
    · -- wantsPhoneChange = true
      rename_i hwpc
      split at heq
      all_goals try (exact (Except.noConfusion heq))
      rename_i hnp
      split at heq
      all_goals try (exact (Except.noConfusion heq))
      split at heq
      all_goals try (exact (Except.noConfusion heq))
      split at heq
      all_goals try (exact (Except.noConfusion heq))
      split at heq
      · -- wantsEmailChange = true
        split at heq
        all_goals try (exact (Except.noConfusion heq))
        split at heq
        all_goals try (exact (Except.noConfusion heq))
        split at heq
        all_goals try (exact (Except.noConfusion heq))
        split at heq
        all_goals try (exact (Except.noConfusion heq))
        split at heq
        all_goals try (exact (Except.noConfusion heq))
        split at heq
        all_goals try (exact (Except.noConfusion heq))
        obtain ⟨rfl, hlink, hpc, howner⟩ := ownerFinalize_ok_inv heq
        refine ⟨?_, ?_, ?_, ?_⟩
        · intro x
          rw [ownerApply_email_frame]
          refine mapField_updateAdminRow _ _ _ _ ?_ ?_ x
          · exact fun a => rfl
          · exact fun a => rfl
        · intro x
          rw [ownerApply_version_frame]
          exact mapVer_bump db _ x
        · intro hpcf
          rw [hpc] at hpcf
          exact absurd hwpc (by simp [hpcf])
        · exact ⟨_, dp, hfp, hdp, hpc, fun h2 =>
            ⟨_, hnp, ownerApply_phone_some_target _ _ _ _ _ _ _ _ _ _ hfp⟩⟩
      · -- wantsEmailChange = false
        split at heq
        all_goals try (exact (Except.noConfusion heq))
        obtain ⟨rfl, hlink, hpc, howner⟩ := ownerFinalize_ok_inv heq
        refine ⟨?_, ?_, ?_, ?_⟩
        · intro x
          rw [ownerApply_email_frame]
        · intro x
          left
          rw [ownerApply_version_frame]
        · intro hpcf
          rw [hpc] at hpcf
          exact absurd hwpc (by simp [hpcf])
        · exact ⟨_, dp, hfp, hdp, hpc, fun h2 =>
            ⟨_, hnp, ownerApply_phone_some_target _ _ _ _ _ _ _ _ _ _ hfp⟩⟩
    · -- wantsPhoneChange = false
      rename_i hwpcF
      split at heq
      all_goals try (exact (Except.noConfusion heq))
      split at heq
      all_goals try (exact (Except.noConfusion heq))
      split at heq
      · -- wantsEmailChange = true
        split at heq
        all_goals try (exact (Except.noConfusion heq))
        split at heq
        all_goals try (exact (Except.noConfusion heq))
        split at heq
        all_goals try (exact (Except.noConfusion heq))
        split at heq
        all_goals try (exact (Except.noConfusion heq))
        split at heq
        all_goals try (exact (Except.noConfusion heq))
        split at heq
        all_goals try (exact (Except.noConfusion heq))
        obtain ⟨rfl, hlink, hpc, howner⟩ := ownerFinalize_ok_inv heq
        refine ⟨?_, ?_, ?_, ?_⟩
        · intro x
          rw [ownerApply_email_frame]
          refine mapField_updateAdminRow _ _ _ _ ?_ ?_ x
          · exact fun a => rfl
          · exact fun a => rfl
        · intro x
          rw [ownerApply_version_frame]
          exact mapVer_bump db _ x
        · intro hpcf x
          rw [ownerApply_phone_none_frame, findAdminProfile_updateAdminRow]
        · exact ⟨_, dp, hfp, hdp, hpc, fun h2 => absurd h2 hwpcF⟩
      · -- wantsEmailChange = false
        split at heq
        all_goals try (exact (Except.noConfusion heq))
        obtain ⟨rfl, hlink, hpc, howner⟩ := ownerFinalize_ok_inv heq
        refine ⟨?_, ?_, ?_, ?_⟩
        · intro x
          rw [ownerApply_email_frame]
        · intro x
          left
          rw [ownerApply_version_frame]
        · intro hpcf x
          rw [ownerApply_phone_none_frame]
        · exact ⟨_, dp, hfp, hdp, hpc, fun h2 => absurd h2 hwpcF⟩
  next => trivial


end Profile

namespace Profile

theorem findCustomerProfile_custNameLayer (db1 : CustomerDB) (C x : String)
    (cfn : Option String) :
    findCustomerProfile (if cfn.isSome = true then
        updateCustomerRow db1 C (fun c => { c with fullName := cfn.getD c.fullName })
      else db1) x = findCustomerProfile db1 x := by
  by_cases h1 : cfn.isSome = true <;> simp [h1, findCustomerProfile_updateCustomerRow]

theorem custApply_ok_inv {db1 : CustomerDB} {C : String} {hasProf : Bool}
    {cfn pfn pu : Option String} {addr : Option (Option String)} {ph : Option String}
    {db3 : CustomerDB} (h : custApplyStagedWrites db1 C hasProf cfn pfn pu addr ph = .ok db3) :
    (∀ x, (findCustomer db3 x).map (fun c => c.email) =
        (findCustomer db1 x).map (fun c => c.email)) ∧
    (∀ x, (findCustomer db3 x).map (fun c => c.emailVerifyVersion) =
        (findCustomer db1 x).map (fun c => c.emailVerifyVersion)) ∧
    (ph = none → ∀ x, (findCustomerProfile db3 x).map (fun p => p.phone) =
        (findCustomerProfile db1 x).map (fun p => p.phone)) ∧
    (∀ p0 prof1, ph = some p0 → findCustomerProfile db1 C = some prof1 →
      (findCustomerProfile db3 C).map (fun q => q.phone) = some p0) := by
  unfold custApplyStagedWrites at h
  have hcm : ∀ x, (findCustomer (if cfn.isSome = true then
        updateCustomerRow db1 C (fun c => { c with fullName := cfn.getD c.fullName })
      else db1) x).map (fun c => c.email) = (findCustomer db1 x).map (fun c => c.email) := by
    intro x
    by_cases h1 : cfn.isSome = true
    · rw [if_pos h1]
      refine mapField_updateCustomerRow _ _ _ _ ?_ ?_ x
      · exact fun c => rfl
      · exact fun c => rfl
    · simp [h1]
  have hvm : ∀ x, (findCustomer (if cfn.isSome = true then
        updateCustomerRow db1 C (fun c => { c with fullName := cfn.getD c.fullName })
      else db1) x).map (fun c => c.emailVerifyVersion) =
      (findCustomer db1 x).map (fun c => c.emailVerifyVersion) := by
    intro x
    by_cases h1 : cfn.isSome = true
    · rw [if_pos h1]
      refine mapField_updateCustomerRow _ _ _ _ ?_ ?_ x
      · exact fun c => rfl
      · exact fun c => rfl
    · simp [h1]
  by_cases h2 : custHasProfileChanges pfn pu addr ph = true
  · rw [if_pos h2] at h
    by_cases h3 : hasProf = true
    · rw [if_pos h3] at h
      cases h
      refine ⟨fun x => hcm x, fun x => hvm x, ?_, ?_⟩
      · intro hph x
        subst hph
        refine Eq.trans (mapField_updateCustomerProfileRow _ _ _ _ ?_ ?_ x) ?_
        · exact fun p => rfl
        · exact fun p => rfl
        · exact congrArg (Option.map fun p => p.phone)
            (findCustomerProfile_custNameLayer db1 C x cfn)
      · intro p0 prof1 hph hfp
        subst hph
        have hpid := find_custProfile_id hfp
        rw [findCustomerProfile_updateCustomerProfileRow]
        · rw [findCustomerProfile_custNameLayer, hfp]
          simp [hpid]
        · exact fun p => rfl
    · rw [if_neg h3] at h
      exact absurd h (by simp)
  · rw [if_neg h2] at h
    cases h
    refine ⟨fun x => hcm x, fun x => hvm x, ?_, ?_⟩
    · intro hph x
      exact congrArg (Option.map fun p => p.phone)
        (findCustomerProfile_custNameLayer db1 C x cfn)
    · intro p0 prof1 hph hfp
      rw [hph] at h2
      simp [custHasProfileChanges] at h2

end Profile

namespace Profile

theorem custApply_some_phone_hasProf {db1 : CustomerDB} {C : String} {hp : Bool}
    {cfn pfn pu : Option String} {addr : Option (Option String)} {p0 : String}
    {db3 : CustomerDB}
    (h : custApplyStagedWrites db1 C hp cfn pfn pu addr (some p0) = .ok db3) : hp = true := by
  unfold custApplyStagedWrites at h
  have hc : custHasProfileChanges pfn pu addr (some p0) = true := by
    simp [custHasProfileChanges]
  rw [if_pos hc] at h
  by_cases h3 : hp = true
  · exact h3
  · rw [if_neg h3] at h
    exact absurd h (by simp)

theorem customerUpdate_ok_shape (db : CustomerDB) (d : CustomerProfileUpdateInput) :
    match CustomerProfileUpdateService db d with
    | .ok (db', r) =>
        (∀ x, (findCustomer db' x).map (fun c => c.email) =
            (findCustomer db x).map (fun c => c.email)) ∧
        (∀ x, (findCustomer db' x).map (fun c => c.emailVerifyVersion) =
              (findCustomer db x).map (fun c => c.emailVerifyVersion) ∨
            (findCustomer db' x).map (fun c => c.emailVerifyVersion) =
              (findCustomer db x).map (fun c => c.emailVerifyVersion + 1)) ∧
        (r.phoneOtpSent = false →
            ∀ x, (findCustomerProfile db' x).map (fun p => p.phone) =
              (findCustomerProfile db x).map (fun p => p.phone)) ∧
        (r.phoneOtpSent = true → ∃ p, d.phone = some p ∧
          (findCustomerProfile db' d.customerId).map (fun q => q.phone) = some p)
    | .error _ => True := by
  unfold CustomerProfileUpdateService
  simp only [bind_def, Except.bind, failIf]
  split
  next db' r heq =>
    split at heq
    all_goals try (exact (Except.noConfusion heq))
    split at heq
    all_goals try (exact (Except.noConfusion heq))
    split at heq
    all_goals try (exact (Except.noConfusion heq))
    split at heq
    · -- wantsPhoneChange = true
      rename_i hwpc
      split at heq
      all_goals try (exact (Except.noConfusion heq))
      rename_i hdphone
      split at heq
      all_goals try (exact (Except.noConfusion heq))
      split at heq
      all_goals try (exact (Except.noConfusion heq))
      simp at heq
      split at heq
      · -- wantsEmailChange = true
        split at heq
        all_goals try (exact (Except.noConfusion heq))
        split at heq
        all_goals try (exact (Except.noConfusion heq))
        split at heq
        all_goals try (exact (Except.noConfusion heq))
        split at heq
        all_goals try (exact (Except.noConfusion heq))
        split at heq
        all_goals try (exact (Except.noConfusion heq))
        split at heq
        all_goals try (exact (Except.noConfusion heq))
        rename custApplyStagedWrites _ _ _ _ _ _ _ _ = Except.ok _ => happly
        obtain ⟨rfl, hlink, hpo, hcust⟩ := custFinalize_ok_inv heq
        obtain ⟨hem, hver, hphn, hpht⟩ := custApply_ok_inv happly
        have hbump : ∀ x, (findCustomer (updateCustomerRow db d.customerId (fun c =>
            { c with emailVerifyVersion := c.emailVerifyVersion + 1 })) x).map
              (fun c => c.email) = (findCustomer db x).map (fun c => c.email) := by
          intro x
          refine mapField_updateCustomerRow _ _ _ _ ?_ ?_ x
          · exact fun c => rfl
          · exact fun c => rfl
        refine ⟨?_, ?_, ?_, ?_⟩
        · intro x
          exact (hem x).trans (hbump x)
        · intro x
          rw [hver x]
          refine mapVer_custBump _ _ _ ?_ ?_ x
          · exact fun c => rfl
          · exact fun c => rfl
        · intro hpof
          rw [hpo] at hpof
          rw [hdphone] at hwpc
          simp at hwpc hpof
          exact absurd hpof hwpc
        · intro hpot
          have hhp := custApply_some_phone_hasProf happly
          obtain ⟨prof, hprof⟩ := Option.isSome_iff_exists.mp hhp
          exact ⟨_, hdphone, hpht _ prof rfl hprof⟩
      · -- wantsEmailChange = false
        split at heq
        all_goals try (exact (Except.noConfusion heq))
        split at heq
        all_goals try (exact (Except.noConfusion heq))
        rename custApplyStagedWrites _ _ _ _ _ _ _ _ = Except.ok _ => happly
        obtain ⟨rfl, hlink, hpo, hcust⟩ := custFinalize_ok_inv heq
        obtain ⟨hem, hver, hphn, hpht⟩ := custApply_ok_inv happly
        refine ⟨hem, ?_, ?_, ?_⟩
        · intro x
          exact Or.inl (hver x)
        · intro hpof
          rw [hpo] at hpof
          rw [hdphone] at hwpc
          simp at hwpc hpof
          exact absurd hpof hwpc
        · intro hpot
          have hhp := custApply_some_phone_hasProf happly
          obtain ⟨prof, hprof⟩ := Option.isSome_iff_exists.mp hhp
          exact ⟨_, hdphone, hpht _ prof rfl hprof⟩
    · -- wantsPhoneChange = false
      rename_i hwpcF
      split at heq
      · -- wantsEmailChange = true
        split at heq
        all_goals try (exact (Except.noConfusion heq))
        split at heq
        all_goals try (exact (Except.noConfusion heq))
        split at heq
        all_goals try (exact (Except.noConfusion heq))
        split at heq
        all_goals try (exact (Except.noConfusion heq))
        split at heq
        all_goals try (exact (Except.noConfusion heq))
        split at heq
        all_goals try (exact (Except.noConfusion heq))
        rename custApplyStagedWrites _ _ _ _ _ _ _ _ = Except.ok _ => happly
        obtain ⟨rfl, hlink, hpo, hcust⟩ := custFinalize_ok_inv heq
        obtain ⟨hem, hver, hphn, hpht⟩ := custApply_ok_inv happly
        have hbump : ∀ x, (findCustomer (updateCustomerRow db d.customerId (fun c =>
            { c with emailVerifyVersion := c.emailVerifyVersion + 1 })) x).map
              (fun c => c.email) = (findCustomer db x).map (fun c => c.email) := by
          intro x
          refine mapField_updateCustomerRow _ _ _ _ ?_ ?_ x
          · exact fun c => rfl
          · exact fun c => rfl
        refine ⟨?_, ?_, ?_, ?_⟩
        · intro x
          exact (hem x).trans (hbump x)
        · intro x
          rw [hver x]
          refine mapVer_custBump _ _ _ ?_ ?_ x
          · exact fun c => rfl
          · exact fun c => rfl
        · intro hpof x
          exact hphn rfl x
        · intro hpot
          rw [hpo] at hpot
          exact absurd hpot hwpcF
      · -- wantsEmailChange = false
        split at heq
        all_goals try (exact (Except.noConfusion heq))
        split at heq
        all_goals try (exact (Except.noConfusion heq))
        rename custApplyStagedWrites _ _ _ _ _ _ _ _ = Except.ok _ => happly
        obtain ⟨rfl, hlink, hpo, hcust⟩ := custFinalize_ok_inv heq
        obtain ⟨hem, hver, hphn, hpht⟩ := custApply_ok_inv happly
        refine ⟨hem, ?_, ?_, ?_⟩
        · intro x
          exact Or.inl (hver x)
        · intro hpof x
          exact hphn rfl x
        · intro hpot
          rw [hpo] at hpot
          exact absurd hpot hwpcF

  next => trivial

end Profile

namespace Profile

theorem mapVer_adminBumpF (db : OwnerDB) (id : String) (f : Admin → Admin)
    (hid : ∀ a, (f a).id = a.id)
    (hver : ∀ a, (f a).emailVerifyVersion = a.emailVerifyVersion + 1) :
    ∀ x, (findAdmin (updateAdminRow db id f) x).map (fun a => a.emailVerifyVersion) =
        (findAdmin db x).map (fun a => a.emailVerifyVersion) ∨
      (findAdmin (updateAdminRow db id f) x).map (fun a => a.emailVerifyVersion) =
        (findAdmin db x).map (fun a => a.emailVerifyVersion + 1) := by
  intro x
  rw [findAdmin_updateAdminRow db id x f hid]
  cases h : findAdmin db x with
  | none => left; rfl
  | some a =>
      by_cases ha : a.id = id
      · right; simp [ha, hver a]
      · left; simp [ha]

theorem ownerConfirm_ok_shape (db : OwnerDB) (tok : OwnerEmailChangeToken) :
    match verifyEmailChangeTokenService db (some tok) with
    | .ok (db', r) =>
        ∃ adminId admin,
          tok.sigOk = true ∧ tok.expired = false ∧
          jsStrOr tok.payload.ownerId tok.payload.adminId = some adminId ∧
          tok.payload.newEmail ≠ "" ∧ tok.payload.oldEmail ≠ "" ∧
          findAdmin db adminId = some admin ∧
          tok.payload.version = some admin.emailVerifyVersion ∧
          admin.email = tok.payload.oldEmail ∧
          findOtherAdminByEmail db tok.payload.newEmail adminId = none ∧
          db' = updateAdminRow db adminId (fun a =>
            { a with email := tok.payload.newEmail,
                     emailVerifyVersion := a.emailVerifyVersion + 1 }) ∧
          r.emailChanged = true ∧
          (∀ x, (findAdmin db' x).map (fun a => a.emailVerifyVersion) =
              (findAdmin db x).map (fun a => a.emailVerifyVersion) ∨
            (findAdmin db' x).map (fun a => a.emailVerifyVersion) =
              (findAdmin db x).map (fun a => a.emailVerifyVersion + 1))
    | .error _ => True := by
  unfold verifyEmailChangeTokenService
  simp only [bind_def, Except.bind, failIf, jwtVerify]
  split
  next db' r heq =>
    split at heq
    all_goals try (exact (Except.noConfusion heq))
    rename_i x1 x2 p hjwt
    split at hjwt
    next => exact (Except.noConfusion hjwt)
    next hsig =>
    split at hjwt
    next => exact (Except.noConfusion hjwt)
    next hexp =>
    cases hjwt
    simp only [Bool.not_eq_true', Bool.not_eq_false] at hsig
    simp only [Bool.not_eq_true] at hexp
    split at heq
    · rename_i adminId hjs
      split at heq
      next hm => exact (Except.noConfusion heq)
      next hm =>
      split at hm
      next => exact (Except.noConfusion hm)
      next hmails =>
      simp only [Bool.or_eq_true, beq_iff_eq, not_or] at hmails
      split at heq
      · rename_i admin hfa
        split at heq
        next => exact (Except.noConfusion heq)
        next hv0 =>
        split at hv0
        next => exact (Except.noConfusion hv0)
        next hver =>
        simp only [Bool.not_eq_true', Bool.not_eq_false] at hver
        split at heq
        next => exact (Except.noConfusion heq)
        next ho0 =>
        split at ho0
        next => exact (Except.noConfusion ho0)
        next hold =>
        simp only [bne, Bool.not_eq_true', Bool.not_eq_false, beq_iff_eq] at hold
        split at heq
        next => exact (Except.noConfusion heq)
        next hu0 =>
        split at hu0
        next => exact (Except.noConfusion hu0)
        next huniq =>
        have huniq' : findOtherAdminByEmail db tok.payload.newEmail adminId = none := by
          cases hu : findOtherAdminByEmail db tok.payload.newEmail adminId with
          | none => rfl
          | some a => rw [hu] at huniq; simp at huniq
        obtain ⟨hdb, hec, _⟩ := ownerConfirmFinalize_ok_inv heq
        refine ⟨adminId, admin, hsig, hexp, hjs, hmails.1, hmails.2, hfa, ?_, hold, huniq', hdb, hec, ?_⟩
        · cases hvv : tok.payload.version with
          | none => rw [hvv] at hver; exact absurd hver (by simp)
          | some v =>
              rw [hvv] at hver
              simp only [beq_iff_eq] at hver
              rw [hver]
        · rw [hdb]
          exact mapVer_adminBumpF db adminId _ (fun a => rfl) (fun a => rfl)
      · exact (Except.noConfusion heq)
    · exact (Except.noConfusion heq)
  next => trivial

theorem custConfirmApply_effects (db : CustomerDB) (id E : String) (c : Customer)
    (hc : findCustomer db id = some c) :
    findCustomer (custConfirmApplyWrites db id E (findCustomerProfile db id).isSome) id =
      some { c with email := E, pendingEmail := none,
                    emailVerifyVersion := c.emailVerifyVersion + 1 } ∧
    (∀ p, findCustomerProfile db id = some p →
      findCustomerProfile (custConfirmApplyWrites db id E (findCustomerProfile db id).isSome) id =
        some { p with email := some E }) ∧
    (∀ x, (findCustomer (custConfirmApplyWrites db id E (findCustomerProfile db id).isSome) x).map
        (fun a => a.emailVerifyVersion) = (findCustomer db x).map (fun a => a.emailVerifyVersion) ∨
      (findCustomer (custConfirmApplyWrites db id E (findCustomerProfile db id).isSome) x).map
        (fun a => a.emailVerifyVersion) =
        (findCustomer db x).map (fun a => a.emailVerifyVersion + 1)) := by
  unfold custConfirmApplyWrites
  cases hp : findCustomerProfile db id with
  | none =>
      simp only [Option.isSome_none, if_neg, Bool.false_eq_true, not_false_iff]
      refine ⟨?_, ?_, ?_⟩
      · rw [findCustomer_updateCustomerRow db id id
            (fun a => { a with email := E, pendingEmail := none,
                               emailVerifyVersion := a.emailVerifyVersion + 1 }) (fun a => rfl), hc]
        simp [find_customer_id hc]
      · intro p hpp
        exact absurd hpp (by simp)
      · exact mapVer_custBump db id
          (fun a => { a with email := E, pendingEmail := none,
                             emailVerifyVersion := a.emailVerifyVersion + 1 })
          (fun a => rfl) (fun a => rfl)
  | some p0 =>
      simp only [Option.isSome_some, if_pos]
      refine ⟨?_, ?_, ?_⟩
      · rw [findCustomer_updateCustomerProfileRow,
            findCustomer_updateCustomerRow db id id
            (fun a => { a with email := E, pendingEmail := none,
                               emailVerifyVersion := a.emailVerifyVersion + 1 }) (fun a => rfl), hc]
        simp [find_customer_id hc]
      · intro p hpp
        cases hpp
        rw [findCustomerProfile_updateCustomerProfileRow _ id id
            (fun q => { q with email := some E }) (fun q => rfl)]
        rw [findCustomerProfile_updateCustomerRow, hp]
        simp [find_custProfile_id hp]
      · intro x
        rw [findCustomer_updateCustomerProfileRow]
        exact mapVer_custBump db id
          (fun a => { a with email := E, pendingEmail := none,
                             emailVerifyVersion := a.emailVerifyVersion + 1 })
          (fun a => rfl) (fun a => rfl) x

theorem customerConfirm_ok_shape (db : CustomerDB) (tok : CustomerEmailChangeToken) :
    match VerifyCustomerEmailChangeService db (some tok) with
    | .ok (db', r) =>
        ∃ customer,
          tok.sigOk = true ∧ tok.expired = false ∧
          tok.payload.customerId ≠ "" ∧ tok.payload.newEmail ≠ "" ∧
          tok.payload.oldEmail ≠ "" ∧
          findCustomer db tok.payload.customerId = some customer ∧
          tok.payload.version = some customer.emailVerifyVersion ∧
          customer.email = tok.payload.oldEmail ∧
          db' = custConfirmApplyWrites db tok.payload.customerId tok.payload.newEmail
                  (findCustomerProfile db tok.payload.customerId).isSome ∧
          r.emailChanged = true ∧
          findCustomer db' tok.payload.customerId =
            some { customer with email := tok.payload.newEmail, pendingEmail := none,
                                 emailVerifyVersion := customer.emailVerifyVersion + 1 } ∧
          (∀ p, findCustomerProfile db tok.payload.customerId = some p →
            findCustomerProfile db' tok.payload.customerId =
              some { p with email := some tok.payload.newEmail }) ∧
          (∀ x, (findCustomer db' x).map (fun a => a.emailVerifyVersion) =
              (findCustomer db x).map (fun a => a.emailVerifyVersion) ∨
            (findCustomer db' x).map (fun a => a.emailVerifyVersion) =
              (findCustomer db x).map (fun a => a.emailVerifyVersion + 1))
    | .error _ => True := by
  unfold VerifyCustomerEmailChangeService
  simp only [bind_def, Except.bind, failIf, jwtVerify]
  split
  next db' r heq =>
    split at heq
    all_goals try (exact (Except.noConfusion heq))
    rename_i x1 x2 p hjwt
    split at hjwt
    next => exact (Except.noConfusion hjwt)
    next hsig =>
    split at hjwt
    next => exact (Except.noConfusion hjwt)
    next hexp =>
    cases hjwt
    simp only [Bool.not_eq_true', Bool.not_eq_false] at hsig
    simp only [Bool.not_eq_true] at hexp
    split at heq
    next => exact (Except.noConfusion heq)
    next hm =>
    split at hm
    next => exact (Except.noConfusion hm)
    next hmails =>
    simp only [Bool.or_eq_true, beq_iff_eq, not_or] at hmails
    split at heq
    · rename_i customer hfc
      split at heq
      next => exact (Except.noConfusion heq)
      next hv0 =>
      split at hv0
      next => exact (Except.noConfusion hv0)
      next hver =>
      simp only [Bool.not_eq_true', Bool.not_eq_false] at hver
      split at heq
      next => exact (Except.noConfusion heq)
      next ho0 =>
      split at ho0
      next => exact (Except.noConfusion ho0)
      next hold =>
      simp only [bne, Bool.not_eq_true', Bool.not_eq_false, beq_iff_eq] at hold
      split at heq
      next => exact (Except.noConfusion heq)
      next hu0 =>
      split at hu0
      next => exact (Except.noConfusion hu0)
      next huniq =>
      obtain ⟨hdb, hec, _⟩ := custConfirmFinalize_ok_inv heq
      obtain ⟨he1, he2, he3⟩ :=
        custConfirmApply_effects db tok.payload.customerId tok.payload.newEmail customer hfc
      refine ⟨customer, hsig, hexp, hmails.1.1, hmails.1.2, hmails.2, hfc, ?_, hold, hdb, hec,
        ?_, ?_, ?_⟩
      · cases hvv : tok.payload.version with
        | none => rw [hvv] at hver; exact absurd hver (by simp)
        | some v =>
            rw [hvv] at hver
            simp only [beq_iff_eq] at hver
            rw [hver]
      · rw [hdb]; exact he1
      · rw [hdb]; exact he2
      · rw [hdb]; exact he3
    · exact (Except.noConfusion heq)
  next => trivial

theorem ownerConfirm_stale (db : OwnerDB) (tok : OwnerEmailChangeToken)
    (adminId : String) (admin : Admin)
    (hsig : tok.sigOk = true) (hexp : tok.expired = false)
    (hjs : jsStrOr tok.payload.ownerId tok.payload.adminId = some adminId)
    (hne : tok.payload.newEmail ≠ "") (hoe : tok.payload.oldEmail ≠ "")
    (hfa : findAdmin db adminId = some admin)
    (hvm : tok.payload.version ≠ some admin.emailVerifyVersion) :
    runOwnerConfirm db (some tok) = (db, .error staleLinkErr) := by
  have hvo : (match tok.payload.version with
      | some v => admin.emailVerifyVersion == v
      | none => false) = false := by
    cases hvv : tok.payload.version with
    | none => rfl
    | some v =>
        rw [hvv] at hvm
        simp only [ne_eq, Option.some.injEq] at hvm
        simp only [beq_eq_false_iff_ne, ne_eq]
        intro h
        exact hvm h.symm
  unfold runOwnerConfirm verifyEmailChangeTokenService
  simp [jwtVerify, failIf, bind_def, Except.bind, hsig, hexp, hjs, hne, hoe, hfa, hvo]

end Profile

namespace Profile

/-- C7: in both the owner-variant gate (`verifyPhoneVerificationToken`) and the
customer-variant gate (`decodePhoneVerificationToken`), a well-signed token
whose expiry has passed fails with the Expired error, a malformed or
wrongly-signed token fails with the Invalid error, and the two errors are
distinguishable by the caller. -/
theorem C7_phone_gate_expired_vs_invalid (t t2 : PhoneVerificationToken)
    (h1 : t.sigOk = true) (h2 : t.expired = true) (h3 : t2.sigOk = false) :
    verifyPhoneVerificationToken true t = .error ownerPhoneExpiredErr ∧
    decodePhoneVerificationToken true t = .error custPhoneExpiredErr ∧
    verifyPhoneVerificationToken true t2 = .error ownerPhoneInvalidErr ∧
    decodePhoneVerificationToken true t2 = .error custPhoneInvalidErr ∧
    ownerPhoneExpiredErr ≠ ownerPhoneInvalidErr ∧
    custPhoneExpiredErr ≠ custPhoneInvalidErr := by
  refine ⟨?_, ?_, ?_, ?_, by decide, by decide⟩ <;>
    simp [verifyPhoneVerificationToken, decodePhoneVerificationToken, jwtVerify, h1, h2, h3]

theorem C7_phone_gate_expired_vs_invalid_witness :
    verifyPhoneVerificationToken true wExpPhoneTok = .error ownerPhoneExpiredErr ∧
    decodePhoneVerificationToken true wExpPhoneTok = .error custPhoneExpiredErr ∧
    verifyPhoneVerificationToken true wBadPhoneTok = .error ownerPhoneInvalidErr ∧
    decodePhoneVerificationToken true wBadPhoneTok = .error custPhoneInvalidErr ∧
    ownerPhoneExpiredErr ≠ ownerPhoneInvalidErr ∧
    custPhoneExpiredErr ≠ custPhoneInvalidErr :=
  C7_phone_gate_expired_vs_invalid wExpPhoneTok wBadPhoneTok (by decide) (by decide) (by decide)

/-- C6: an owner email-change confirmation whose token fails the signature
check or has expired fails with a **401** error and leaves the store
untouched; the customer variant also rejects such tokens without touching the
store, but with the single **400** error `custEmailDecodeErr` rather than a
401 Unauthorized, so the spec sentence holds only for the owner variant. -/
theorem C6_decode_failure_errors (db : OwnerDB) (cdb : CustomerDB)
    (tok : OwnerEmailChangeToken) (ctok : CustomerEmailChangeToken)
    (h1 : tok.sigOk = false ∨ tok.expired = true)
    (h2 : ctok.sigOk = false ∨ ctok.expired = true) :
    (runOwnerConfirm db (some tok) = (db, .error ⟨401, "Invalid token"⟩) ∨
      runOwnerConfirm db (some tok) = (db, .error ⟨401, "Token expired"⟩)) ∧
    runCustomerConfirm cdb (some ctok) = (cdb, .error custEmailDecodeErr) := by
  constructor
  · rcases h1 with h | h
    · left
      simp [runOwnerConfirm, verifyEmailChangeTokenService, jwtVerify, h, bind_def, Except.bind]
    · by_cases hs : tok.sigOk = false
      · left
        simp [runOwnerConfirm, verifyEmailChangeTokenService, jwtVerify, hs, bind_def, Except.bind]
      · right
        simp only [Bool.not_eq_false] at hs
        simp [runOwnerConfirm, verifyEmailChangeTokenService, jwtVerify, h, hs, bind_def,
          Except.bind]
  · rcases h2 with h | h
    · simp [runCustomerConfirm, VerifyCustomerEmailChangeService, jwtVerify, h, bind_def,
        Except.bind]
    · by_cases hs : ctok.sigOk = false
      · simp [runCustomerConfirm, VerifyCustomerEmailChangeService, jwtVerify, hs, bind_def,
          Except.bind]
      · simp only [Bool.not_eq_false] at hs
        simp [runCustomerConfirm, VerifyCustomerEmailChangeService, jwtVerify, h, hs, bind_def,
          Except.bind]

theorem C6_decode_failure_errors_witness :
    (runOwnerConfirm wOwnerDB (some wBadOwnerTok) = (wOwnerDB, .error ⟨401, "Invalid token"⟩) ∨
      runOwnerConfirm wOwnerDB (some wBadOwnerTok) = (wOwnerDB, .error ⟨401, "Token expired"⟩)) ∧
    runCustomerConfirm wCustDB (some wBadCustTok) = (wCustDB, .error custEmailDecodeErr) :=
  C6_decode_failure_errors wOwnerDB wCustDB wBadOwnerTok wBadCustTok
    (Or.inl (by decide)) (Or.inl (by decide))

/-- C6 counterexample: on a decode failure the customer confirmation variant
returns the 400 error `custEmailDecodeErr`, not a 401 Unauthorized as the spec
claims for both variants. -/
theorem C6_decode_failure_errors_cex :
    runCustomerConfirm wCustDB (some wBadCustTok) =
      (wCustDB, .error ⟨400, "Invalid or expired email change token. Please request a new link"⟩) ∧
    custEmailDecodeErr.status ≠ 401 := by
  constructor
  · rfl
  · decide

end Profile

namespace Profile

/-- C2: the owner email-change confirmation fails with the StaleLink error and
leaves the store untouched whenever the token's embedded version differs from
the live `emailVerifyVersion`; and since a successful confirmation increments
the version, confirming the same token a second time always fails StaleLink. -/
theorem C2_stale_link_single_use (db : OwnerDB) (tok : OwnerEmailChangeToken) :
    (∀ (adminId : String) (admin : Admin),
      tok.sigOk = true → tok.expired = false →
      jsStrOr tok.payload.ownerId tok.payload.adminId = some adminId →
      tok.payload.newEmail ≠ "" → tok.payload.oldEmail ≠ "" →
      findAdmin db adminId = some admin →
      tok.payload.version ≠ some admin.emailVerifyVersion →
      runOwnerConfirm db (some tok) = (db, .error staleLinkErr)) ∧
    (∀ (db' : OwnerDB) (r : OwnerConfirmResult),
      verifyEmailChangeTokenService db (some tok) = .ok (db', r) →
      runOwnerConfirm db' (some tok) = (db', .error staleLinkErr)) := by
  constructor
  · intro adminId admin hsig hexp hjs hne hoe hfa hvm
    exact ownerConfirm_stale db tok adminId admin hsig hexp hjs hne hoe hfa hvm
  · intro db' r hconf
    have H := ownerConfirm_ok_shape db tok
    rw [hconf] at H
    obtain ⟨adminId, admin, hsig, hexp, hjs, hne, hoe, hfa, hver, hold, huniq, hdb, hec, hv⟩ := H
    have hid : admin.id = adminId := find_admin_id hfa
    have hfa' : findAdmin db' adminId =
        some { admin with email := tok.payload.newEmail,
                          emailVerifyVersion := admin.emailVerifyVersion + 1 } := by
      rw [hdb, findAdmin_updateAdminRow db adminId adminId
        (fun a => { a with email := tok.payload.newEmail,
                           emailVerifyVersion := a.emailVerifyVersion + 1 }) (fun a => rfl), hfa]
      simp [hid]
    refine ownerConfirm_stale db' tok adminId _ hsig hexp hjs hne hoe hfa' ?_
    rw [hver]
    intro h
    simp only [Option.some.injEq] at h
    omega

theorem C2_stale_link_single_use_witness :
    runOwnerConfirm wOwnerDB (some wStaleTok) = (wOwnerDB, .error staleLinkErr) ∧
    runOwnerConfirm wOwnerDB1 (some wTok2) = (wOwnerDB1, .error staleLinkErr) :=
  ⟨(C2_stale_link_single_use wOwnerDB wStaleTok).1 "A" wAdmin (by decide) (by decide) (by decide)
      (by decide) (by decide) (by decide) (by decide),
   (C2_stale_link_single_use wOwnerDB wTok2).2 wOwnerDB1 wR2 (by rfl)⟩

/-- C3: in both the owner and the customer update variants, a single call that
wants an email change (a supplied email differing from the stored one) and a
phone change (a supplied phone differing from the stored one) at the same time
fails with the 400 mutual-exclusion error and the store is left untouched. -/
theorem C3_mutually_exclusive_change :
    (∀ (s : Bool) (db : OwnerDB) (A E ph : String) (admin : Admin)
      (profile : AdminProfile) (tok : PhoneVerificationToken),
      A.jsTrim = A → A ≠ "" → findAdmin db A = some admin → findAdminProfile db A = some profile →
      E.jsTrim = E → E ≠ "" → E ≠ admin.email →
      verifyPhoneVerificationToken s tok = .ok ⟨true, ph⟩ →
      ph.jsTrim = ph → normalizeDigits ph = ph → ph ≠ "" → ¬ (ph.jsLength < 7) →
      ph ≠ profile.phone →
      runOwnerUpdate s db
        { adminId := A, email := some (some E), phoneVerificationToken := some (some tok) } =
        (db, .error ⟨400, "You can update either email or phone at a time, not both"⟩)) ∧
    (∀ (db : CustomerDB) (C E P : String) (customer : Customer),
      C ≠ "" → findCustomer db C = some customer →
      E ≠ customer.email →
      some P ≠ (findCustomerProfile db C).map (fun p => p.phone) →
      runCustomerUpdate db { customerId := C, email := some E, phone := some P } =
        (db, .error ⟨400, "You can update either email or phone at a time, not both"⟩)) := by
  constructor
  · intro s db A E ph admin profile tok hA1 hA2 hfa hfp hE1 hE2 hE3 hdp hph1 hph2 hph3 hph4 hph5
    have h : UpdateOwnerProfileService s db
        { adminId := A, email := some (some E), phoneVerificationToken := some (some tok) } =
        .error ⟨400, "You can update either email or phone at a time, not both"⟩ := by
      simp [UpdateOwnerProfileService, decodeUpdatePhone, failIf, bind_ok_red, bind_err_red,
        pure_red, hA1, hA2, hfa, hfp, hdp, hph1, hph2, hph3, hph4, hph5, hE1, hE2, hE3]
    simp [runOwnerUpdate, h]
  · intro db C E P customer hC hfc hE hP
    have h : CustomerProfileUpdateService db { customerId := C, email := some E, phone := some P } =
        .error ⟨400, "You can update either email or phone at a time, not both"⟩ := by
      simp [CustomerProfileUpdateService, failIf, bind_ok_red, bind_err_red,
        pure_red, hC, hfc, hE, hP]
    simp [runCustomerUpdate, h]

theorem C3_mutually_exclusive_change_witness :
    runOwnerUpdate true wOwnerDB
      { adminId := "A", email := some (some "b@x.com"),
        phoneVerificationToken := some (some wPhoneTok) } =
      (wOwnerDB, .error ⟨400, "You can update either email or phone at a time, not both"⟩) ∧
    runCustomerUpdate wCustDB { customerId := "C", email := some "d@x.com", phone := some "555" } =
      (wCustDB, .error ⟨400, "You can update either email or phone at a time, not both"⟩) :=
  ⟨C3_mutually_exclusive_change.1 true wOwnerDB "A" "b@x.com" "919888811111" wAdmin wProfile
      wPhoneTok (by decide) (by decide) (by decide) (by decide) (by decide) (by decide)
      (by decide) (by rfl) (by decide) (by decide) (by decide) (by decide) (by decide),
   C3_mutually_exclusive_change.2 wCustDB "C" "d@x.com" "555" wCustomer (by decide) (by decide)
      (by decide) (by decide)⟩

end Profile

namespace Profile

/-- C9: `emailVerifyVersion` never decreases — the owner update and the owner
confirmation each leave every stored version unchanged or increment it by one —
and a token accepted by the confirmation has its embedded version equal to the
live stored value at that moment.  (The converse of the acceptance clause is
false: see the counterexample, a version-matching token can still be
rejected.) -/
theorem C9_version_monotone_and_match :
    (∀ (s : Bool) (db : OwnerDB) (d : OwnerProfileUpdateData) (x : String),
      (findAdmin (runOwnerUpdate s db d).1 x).map (fun a => a.emailVerifyVersion) =
          (findAdmin db x).map (fun a => a.emailVerifyVersion) ∨
        (findAdmin (runOwnerUpdate s db d).1 x).map (fun a => a.emailVerifyVersion) =
          (findAdmin db x).map (fun a => a.emailVerifyVersion + 1)) ∧
    (∀ (db : OwnerDB) (token : Option OwnerEmailChangeToken) (x : String),
      (findAdmin (runOwnerConfirm db token).1 x).map (fun a => a.emailVerifyVersion) =
          (findAdmin db x).map (fun a => a.emailVerifyVersion) ∨
        (findAdmin (runOwnerConfirm db token).1 x).map (fun a => a.emailVerifyVersion) =
          (findAdmin db x).map (fun a => a.emailVerifyVersion + 1)) ∧
    (∀ (db : OwnerDB) (tok : OwnerEmailChangeToken) (db' : OwnerDB) (r : OwnerConfirmResult)
      (adminId : String) (admin : Admin),
      verifyEmailChangeTokenService db (some tok) = .ok (db', r) →
      jsStrOr tok.payload.ownerId tok.payload.adminId = some adminId →
      findAdmin db adminId = some admin →
      tok.payload.version = some admin.emailVerifyVersion) := by
  refine ⟨?_, ?_, ?_⟩
  · intro s db d x
    cases hser : UpdateOwnerProfileService s db d with
    | error e => simp [runOwnerUpdate, hser]
    | ok p =>
        obtain ⟨db', r⟩ := p
        have H := ownerUpdate_ok_shape s db d
        rw [hser] at H
        obtain ⟨_, h2, _, _⟩ := H
        simpa [runOwnerUpdate, hser] using h2 x
  · intro db token x
    cases token with
    | none => simp [runOwnerConfirm, verifyEmailChangeTokenService]
    | some tok =>
        cases hser : verifyEmailChangeTokenService db (some tok) with
        | error e => simp [runOwnerConfirm, hser]
        | ok p =>
            obtain ⟨db', r⟩ := p
            have H := ownerConfirm_ok_shape db tok
            rw [hser] at H
            obtain ⟨adminId, admin, _, _, _, _, _, _, _, _, _, _, _, hv⟩ := H
            simpa [runOwnerConfirm, hser] using hv x
  · intro db tok db' r adminId admin hconf hjs0 hfa0
    have H := ownerConfirm_ok_shape db tok
    rw [hconf] at H
    obtain ⟨adminId', admin', _, _, hjs, _, _, hfa, hver, _, _, _, _, _⟩ := H
    rw [hjs0] at hjs
    cases hjs
    rw [hfa0] at hfa
    cases hfa
    exact hver

theorem C9_version_monotone_and_match_witness :
    ((findAdmin (runOwnerUpdate true wOwnerDB
          { adminId := "A", email := some (some "b@x.com") }).1 "A").map
        (fun a => a.emailVerifyVersion) =
          (findAdmin wOwnerDB "A").map (fun a => a.emailVerifyVersion) ∨
      (findAdmin (runOwnerUpdate true wOwnerDB
          { adminId := "A", email := some (some "b@x.com") }).1 "A").map
        (fun a => a.emailVerifyVersion) =
          (findAdmin wOwnerDB "A").map (fun a => a.emailVerifyVersion + 1)) ∧
    ((findAdmin (runOwnerConfirm wOwnerDB (some wTok2)).1 "A").map
        (fun a => a.emailVerifyVersion) =
          (findAdmin wOwnerDB "A").map (fun a => a.emailVerifyVersion) ∨
      (findAdmin (runOwnerConfirm wOwnerDB (some wTok2)).1 "A").map
        (fun a => a.emailVerifyVersion) =
          (findAdmin wOwnerDB "A").map (fun a => a.emailVerifyVersion + 1)) ∧
    wTok2.payload.version = some wAdmin.emailVerifyVersion :=
  ⟨C9_version_monotone_and_match.1 true wOwnerDB
      { adminId := "A", email := some (some "b@x.com") } "A",
   C9_version_monotone_and_match.2.1 wOwnerDB (some wTok2) "A",
   C9_version_monotone_and_match.2.2 wOwnerDB wTok2 wOwnerDB1 wR2 "A" wAdmin (by rfl)
      (by decide) (by decide)⟩

/-- C9 counterexample: acceptance is not *equivalent* to a version match — the
token `wC9Tok` carries the live version (0) of owner `A` yet the confirmation
rejects it, because its `oldEmail` stamp does not match the stored email. -/
theorem C9_version_monotone_and_match_cex :
    wC9Tok.payload.version = some wAdmin.emailVerifyVersion ∧
    findAdmin wOwnerDB "A" = some wAdmin ∧
    jsStrOr wC9Tok.payload.ownerId wC9Tok.payload.adminId = some "A" ∧
    runOwnerConfirm wOwnerDB (some wC9Tok) =
      (wOwnerDB, .error ⟨400, "Email has already been changed or does not match the email change link"⟩) :=
  ⟨by decide, by decide, by decide, by rfl⟩

/-- C10: a successful customer email-change confirmation writes the token's
`newEmail` into `Customer.email`, clears `Customer.pendingEmail` to `null`,
increments `emailVerifyVersion` by one, and — when a `CustomerProfile` row
exists — also sets `CustomerProfile.email` to the new email, so identity and
profile email agree afterwards. -/
theorem C10_customer_confirm_effects (db : CustomerDB) (tok : CustomerEmailChangeToken)
    (db' : CustomerDB) (r : CustomerConfirmResult) (customer : Customer) (p : CustomerProfile)
    (hconf : VerifyCustomerEmailChangeService db (some tok) = .ok (db', r))
    (hfc : findCustomer db tok.payload.customerId = some customer) :
    findCustomer db' tok.payload.customerId =
      some { customer with email := tok.payload.newEmail, pendingEmail := none,
                           emailVerifyVersion := customer.emailVerifyVersion + 1 } ∧
    (findCustomerProfile db tok.payload.customerId = some p →
      findCustomerProfile db' tok.payload.customerId =
        some { p with email := some tok.payload.newEmail }) := by
  have H := customerConfirm_ok_shape db tok
  rw [hconf] at H
  obtain ⟨customer0, _, _, _, _, _, hfc0, _, _, _, _, he1, he2, _⟩ := H
  rw [hfc0] at hfc
  cases hfc
  exact ⟨he1, fun hp => he2 p hp⟩

theorem C10_customer_confirm_effects_witness :
    findCustomer wCustDB10 "C" = some wCust10 ∧
    findCustomerProfile wCustDB10 "C" = some wCustProf10 :=
  ⟨(C10_customer_confirm_effects wCustDB wCustTok wCustDB10 wCR10 wCustomer wCustProfile
      (by rfl) (by decide)).1,
   (C10_customer_confirm_effects wCustDB wCustTok wCustDB10 wCR10 wCustomer wCustProfile
      (by rfl) (by decide)).2 (by decide)⟩

end Profile

namespace Profile

/-- C4: the owner update accepts a phone change only through the Phone
Verification Gate — the staged value is the decoded phone of the verification
token, trimmed and digit-normalized, and `phoneChanged` is true exactly when
that decoded phone differs from the stored one.  The customer variant deviates
from the spec: it stages the raw client-supplied `phone` field with no
verification token involved. -/
theorem C4_phone_change_gate :
    (∀ (s : Bool) (db : OwnerDB) (d : OwnerProfileUpdateData) (db' : OwnerDB)
      (r : OwnerUpdateResult) (profile : AdminProfile) (dp : Option String × Bool),
      UpdateOwnerProfileService s db d = .ok (db', r) →
      findAdminProfile db d.adminId.jsTrim = some profile →
      decodeUpdatePhone s d.phoneVerificationToken profile.phone = .ok dp →
      r.phoneChanged = dp.2 ∧
      (dp.2 = true →
        (findAdminProfile db' d.adminId.jsTrim).map (fun q => q.phone) = dp.1)) ∧
    (∀ (s : Bool) (tf : Option (Option PhoneVerificationToken)) (cur : String)
      (t : PhoneVerificationToken) (payload : PhoneVerificationTokenPayload)
      (dp : Option String × Bool),
      tf = some (some t) →
      verifyPhoneVerificationToken s t = .ok payload →
      decodeUpdatePhone s tf cur = .ok dp →
      dp = (some (normalizeDigits payload.phone.jsTrim),
            normalizeDigits payload.phone.jsTrim != cur)) ∧
    (∀ (db : CustomerDB) (d : CustomerProfileUpdateInput) (db' : CustomerDB)
      (r : CustomerUpdateResult) (p : String),
      CustomerProfileUpdateService db d = .ok (db', r) →
      r.phoneOtpSent = true →
      d.phone = some p →
      (findCustomerProfile db' d.customerId).map (fun q => q.phone) = some p) := by
  refine ⟨?_, ?_, ?_⟩
  · intro s db d db' r profile dp hok hfp hdp
    have H := ownerUpdate_ok_shape s db d
    rw [hok] at H
    obtain ⟨_, _, _, profile0, dp0, hfp0, hdp0, hpc, htgt⟩ := H
    rw [hfp] at hfp0
    cases hfp0
    rw [hdp] at hdp0
    cases hdp0
    refine ⟨hpc, fun h => ?_⟩
    obtain ⟨p, hp1, hp2⟩ := htgt h
    rw [hp1]
    exact hp2
  · intro s tf cur t payload dp htf hp hdp
    subst htf
    simp only [decodeUpdatePhone] at hdp
    rw [hp] at hdp
    split at hdp
    next heq0 => exact (Except.noConfusion heq0)
    next h1 =>
    have hpl := Except.ok.inj h1
    subst hpl
    by_cases h2 : (payload.phone.jsTrim == "") = true
    · rw [if_pos h2] at hdp
      exact (Except.noConfusion hdp)
    · rw [if_neg h2] at hdp
      by_cases hb : (normalizeDigits payload.phone.jsTrim == "" ||
          decide ((normalizeDigits payload.phone.jsTrim).jsLength < 7)) = true
      · rw [if_pos hb] at hdp
        exact (Except.noConfusion hdp)
      · rw [if_neg hb] at hdp
        exact (Except.ok.inj hdp).symm
  · intro db d db' r p hok hotp hp
    have H := customerUpdate_ok_shape db d
    rw [hok] at H
    obtain ⟨_, _, _, h4⟩ := H
    obtain ⟨p0, hp0, hst⟩ := h4 hotp
    rw [hp] at hp0
    cases hp0
    exact hst

theorem C4_phone_change_gate_witness :
    (wC4R.phoneChanged = true ∧
      (true = true →
        (findAdminProfile wC4Db wC4OwnIn.adminId.jsTrim).map (fun q => q.phone) =
          some "919888811111")) ∧
    ((some "919888811111", true) : Option String × Bool) =
      (some (normalizeDigits wPhoneTok.payload.phone.jsTrim),
       normalizeDigits wPhoneTok.payload.phone.jsTrim != wProfile.phone) ∧
    (findCustomerProfile wC4CustDb wC4In.customerId).map (fun q => q.phone) =
      some "+1 555 0100" :=
  ⟨C4_phone_change_gate.1 true wOwnerDB wC4OwnIn wC4Db wC4R wProfile
      (some "919888811111", true) (by rfl) (by decide) (by rfl),
   C4_phone_change_gate.2.1 true (some (some wPhoneTok)) wProfile.phone wPhoneTok
      wPhoneTok.payload (some "919888811111", true) (by rfl) (by rfl) (by rfl),
   C4_phone_change_gate.2.2 wCustDB wC4In wC4CustDb wC4CustR "+1 555 0100"
      (by rfl) (by rfl) (by rfl)⟩

/-- C4 counterexample: the customer update variant accepts and stores a raw
client-supplied phone value — here the unnormalized string `"+1 555 0100"` —
with no phone-verification token in play (the customer update input has no
token field at all), contradicting the spec sentence that both variants stage
only the gate-decoded phone. -/
theorem C4_phone_change_gate_cex :
    CustomerProfileUpdateService wCustDB wC4In = .ok (wC4CustDb, wC4CustR) ∧
    (findCustomerProfile wC4CustDb "C").map (fun q => q.phone) = some "+1 555 0100" ∧
    normalizeDigits "+1 555 0100" ≠ "+1 555 0100" :=
  ⟨by rfl, by rfl, by decide⟩

/-- C5: a successful update never modifies the stored identity email — an
email-change initiation bumps only `emailVerifyVersion` and mints a link —
and when no phone change was accepted the stored profile phone is likewise
untouched, for every account in the store, in both variants. -/
theorem C5_email_phone_frame :
    (∀ (s : Bool) (db : OwnerDB) (d : OwnerProfileUpdateData) (db' : OwnerDB)
      (r : OwnerUpdateResult) (x : String),
      UpdateOwnerProfileService s db d = .ok (db', r) →
      (findAdmin db' x).map (fun a => a.email) = (findAdmin db x).map (fun a => a.email) ∧
      (r.phoneChanged = false →
        (findAdminProfile db' x).map (fun p => p.phone) =
          (findAdminProfile db x).map (fun p => p.phone))) ∧
    (∀ (db : CustomerDB) (d : CustomerProfileUpdateInput) (db' : CustomerDB)
      (r : CustomerUpdateResult) (x : String),
      CustomerProfileUpdateService db d = .ok (db', r) →
      (findCustomer db' x).map (fun c => c.email) = (findCustomer db x).map (fun c => c.email) ∧
      (r.phoneOtpSent = false →
        (findCustomerProfile db' x).map (fun p => p.phone) =
          (findCustomerProfile db x).map (fun p => p.phone))) := by
  constructor
  · intro s db d db' r x hok
    have H := ownerUpdate_ok_shape s db d
    rw [hok] at H
    obtain ⟨h1, _, h3, _⟩ := H
    exact ⟨h1 x, fun h => h3 h x⟩
  · intro db d db' r x hok
    have H := customerUpdate_ok_shape db d
    rw [hok] at H
    obtain ⟨h1, _, h3, _⟩ := H
    exact ⟨h1 x, fun h => h3 h x⟩

theorem C5_email_phone_frame_witness :
    ((findAdmin wC5Db "A").map (fun a => a.email) =
        (findAdmin wOwnerDB "A").map (fun a => a.email) ∧
      (wC5R.phoneChanged = false →
        (findAdminProfile wC5Db "A").map (fun p => p.phone) =
          (findAdminProfile wOwnerDB "A").map (fun p => p.phone))) ∧
    ((findCustomer wC5CustDb "C").map (fun c => c.email) =
        (findCustomer wCustDB "C").map (fun c => c.email) ∧
      (wC5CustR.phoneOtpSent = false →
        (findCustomerProfile wC5CustDb "C").map (fun p => p.phone) =
          (findCustomerProfile wCustDB "C").map (fun p => p.phone))) :=
  ⟨C5_email_phone_frame.1 true wOwnerDB wC5OwnIn wC5Db wC5R "A" (by rfl),
   C5_email_phone_frame.2 wCustDB wC5CustIn wC5CustDb wC5CustR "C" (by rfl)⟩

end Profile

namespace Profile

/-- C8: three-valued semantics of the optional `shortBio` field of the owner
update — `null` clears the stored bio, an absent field leaves it unchanged,
and a provided value stores its trimmed form, so `null` and absent produce
different stored states from the same non-null start. -/
theorem C8_shortBio_three_valued (s : Bool) (db : OwnerDB) (A N B bio0 : String)
    (admin : Admin) (profile : AdminProfile)
    (hA1 : A.jsTrim = A) (hA2 : A ≠ "")
    (hfa : findAdmin db A = some admin) (hfp : findAdminProfile db A = some profile)
    (hN : N.jsTrim = N) (hN2 : N ≠ "")
    (hB : B.jsTrim = B) (hB2 : B ≠ "")
    (hbio : profile.shortBio = some bio0)
    (hreg : profile.isGstRegistered = false) :
    (findAdminProfile (runOwnerUpdate s db
        { adminId := A, fullName := some (some N), shortBio := some none }).1 A).map
      (fun p => p.shortBio) = some none ∧
    (findAdminProfile (runOwnerUpdate s db
        { adminId := A, fullName := some (some N) }).1 A).map
      (fun p => p.shortBio) = some (some bio0) ∧
    (findAdminProfile (runOwnerUpdate s db
        { adminId := A, fullName := some (some N), shortBio := some (some B) }).1 A).map
      (fun p => p.shortBio) = some (some B) ∧
    (none : Option String) ≠ some bio0 := by
  have hid : admin.id = A := find_admin_id hfa
  have hpid : profile.adminId = A := find_adminProfile_id hfp
  refine ⟨?_, ?_, ?_, by simp⟩ <;>
    simp [runOwnerUpdate, UpdateOwnerProfileService, failIf, bind_def, Except.bind,
      bind_ok_red, bind_err_red, pure_red, decodeUpdatePhone,
      stagedFullName, stagedPhotoUrl, stagedPreferredLanguage, stagedShortBio,
      stagedCountryCode, stagedGst, optClearOrTrim, finalPincodeOf, strFalsy,
      ownerHasProfileChanges, ownerApplyStagedWrites, ownerFinalize, applyAdminProfileUpdate,
      hA1, hA2, hfa, hfp, hN, hN2, hB, hB2, hreg, hbio, hid, hpid,
      findAdmin_updateAdminRow, findAdmin_updateAdminProfileRow,
      findAdminProfile_updateAdminRow, findAdminProfile_updateAdminProfileRow]

end Profile

namespace Profile

theorem C8_shortBio_three_valued_witness :
    (findAdminProfile (runOwnerUpdate true wOwnerDB
        { adminId := "A", fullName := some (some "Nm"), shortBio := some none }).1 "A").map
      (fun p => p.shortBio) = some none ∧
    (findAdminProfile (runOwnerUpdate true wOwnerDB
        { adminId := "A", fullName := some (some "Nm") }).1 "A").map
      (fun p => p.shortBio) = some (some "hi") ∧
    (findAdminProfile (runOwnerUpdate true wOwnerDB
        { adminId := "A", fullName := some (some "Nm"), shortBio := some (some "new bio") }).1
        "A").map (fun p => p.shortBio) = some (some "new bio") ∧
    (none : Option String) ≠ some "hi" :=
  C8_shortBio_three_valued true wOwnerDB "A" "Nm" "new bio" "hi" wAdmin wProfile
    (by decide) (by decide) (by decide) (by decide) (by decide) (by decide)
    (by decide) (by decide) (by decide) (by decide)

end Profile

namespace Profile

/-- C1: the email-change round trip — an owner update whose (trimmed) email
`E` differs from the stored email succeeds, bumps only `emailVerifyVersion`,
and mints a link token; immediately confirming that token succeeds and leaves
the stored email equal to `E` and the stored `emailVerifyVersion` equal to its
pre-initiate value plus two. -/
theorem C1_initiate_confirm_round_trip (s : Bool) (db : OwnerDB) (A E : String)
    (admin : Admin) (profile : AdminProfile)
    (hA1 : A.jsTrim = A) (hA2 : A ≠ "")
    (hfa : findAdmin db A = some admin)
    (hfp : findAdminProfile db A = some profile)
    (hE1 : E.jsTrim = E) (hE2 : E ≠ "") (hE3 : E ≠ admin.email)
    (hfmt : isEmailFormat E = true)
    (huniq : findOtherAdminByEmail db E A = none)
    (hact : admin.isActive = true)
    (hOld : admin.email ≠ "")
    (hgst : stagedGst profile { adminId := A, email := some (some E) } = .ok none) :
    UpdateOwnerProfileService s db { adminId := A, email := some (some E) } =
      .ok (updateAdminRow db A bumpVersion,
        { owner := bumpVersion admin, profile := findAdminProfile db A,
          emailChangeLink := some (emailChangeToken
            ⟨some A, none, E, admin.email, some (admin.emailVerifyVersion + 1)⟩),
          phoneChanged := false }) ∧
    verifyEmailChangeTokenService (updateAdminRow db A bumpVersion)
      (some (emailChangeToken ⟨some A, none, E, admin.email, some (admin.emailVerifyVersion + 1)⟩)) =
      .ok (updateAdminRow (updateAdminRow db A bumpVersion) A
            (fun a => { a with email := E, emailVerifyVersion := a.emailVerifyVersion + 1 }),
        { owner := { id := admin.id, fullName := admin.fullName, email := E,
                     isActive := admin.isActive, isProfileComplete := admin.isProfileComplete,
                     emailVerifyVersion := admin.emailVerifyVersion + 1 + 1 },
          profile := findAdminProfile (updateAdminRow (updateAdminRow db A bumpVersion) A
            (fun a => { a with email := E, emailVerifyVersion := a.emailVerifyVersion + 1 })) A,
          emailChanged := true }) ∧
    (findAdmin (updateAdminRow (updateAdminRow db A bumpVersion) A
        (fun a => { a with email := E, emailVerifyVersion := a.emailVerifyVersion + 1 })) A).map
      (fun a => a.email) = some E ∧
    (findAdmin (updateAdminRow (updateAdminRow db A bumpVersion) A
        (fun a => { a with email := E, emailVerifyVersion := a.emailVerifyVersion + 1 })) A).map
      (fun a => a.emailVerifyVersion) = some (admin.emailVerifyVersion + 2) := by
  have hid : admin.id = A := find_admin_id hfa
  have hfa1 : findAdmin (updateAdminRow db A bumpVersion) A = some (bumpVersion admin) := by
    rw [findAdmin_updateAdminRow db A A bumpVersion (fun a => rfl), hfa]
    simp [hid]
  have huniq1 : findOtherAdminByEmail (updateAdminRow db A bumpVersion) E A = none := by
    rw [findOtherAdminByEmail_updateAdminRow db E A A bumpVersion (fun a => rfl)
      (fun a => rfl), huniq]
    rfl
  have hfa2 : findAdmin (updateAdminRow (updateAdminRow db A bumpVersion) A
      (fun a => { a with email := E, emailVerifyVersion := a.emailVerifyVersion + 1 })) A =
      some { id := admin.id, fullName := admin.fullName, email := E,
             isActive := admin.isActive, isProfileComplete := admin.isProfileComplete,
             emailVerifyVersion := admin.emailVerifyVersion + 1 + 1 } := by
    rw [findAdmin_updateAdminRow (updateAdminRow db A bumpVersion) A A
      (fun a => { a with email := E, emailVerifyVersion := a.emailVerifyVersion + 1 })
      (fun a => rfl), hfa1]
    simp [hid, bumpVersion]
  have hfa1L : findAdmin (updateAdminRow db A (fun a =>
      { a with emailVerifyVersion := a.emailVerifyVersion + 1 })) A = some (bumpVersion admin) :=
    hfa1
  have hupd : UpdateOwnerProfileService s db { adminId := A, email := some (some E) } =
      .ok (updateAdminRow db A bumpVersion,
        { owner := bumpVersion admin,
          profile := findAdminProfile db A,
          emailChangeLink := some (emailChangeToken
            ⟨some A, none, E, admin.email, some (admin.emailVerifyVersion + 1)⟩),
          phoneChanged := false }) := by
    simp [UpdateOwnerProfileService, decodeUpdatePhone, failIf, bind_ok_red, bind_err_red,
      pure_red, hA1, hA2, hfa, hfp, hE1, hE2, hE3, hfmt, huniq, hact,
      stagedFullName, stagedPhotoUrl, stagedPreferredLanguage, stagedShortBio,
      stagedCountryCode, hgst, bumpVersion, emailChangeToken, hid, hfa1L, hfp,
      findAdminProfile_updateAdminRow,
      ownerApplyStagedWrites, ownerHasProfileChanges, ownerFinalize]
    rfl
  have hconf : verifyEmailChangeTokenService (updateAdminRow db A bumpVersion)
      (some (emailChangeToken ⟨some A, none, E, admin.email, some (admin.emailVerifyVersion + 1)⟩)) =
      .ok (updateAdminRow (updateAdminRow db A bumpVersion) A
            (fun a => { a with email := E, emailVerifyVersion := a.emailVerifyVersion + 1 }),
        { owner := { id := admin.id, fullName := admin.fullName, email := E,
                     isActive := admin.isActive, isProfileComplete := admin.isProfileComplete,
                     emailVerifyVersion := admin.emailVerifyVersion + 1 + 1 },
          profile := findAdminProfile (updateAdminRow (updateAdminRow db A bumpVersion) A
            (fun a => { a with email := E, emailVerifyVersion := a.emailVerifyVersion + 1 })) A,
          emailChanged := true }) := by
    simp [verifyEmailChangeTokenService, jwtVerify, emailChangeToken, jsStrOr, failIf,
      bind_ok_red, bind_err_red, pure_red, hA2, hE2, hOld, hfa1, huniq1, hfa2, bumpVersion, hid,
      ownerConfirmFinalize]
  refine ⟨hupd, hconf, ?_, ?_⟩
  · simp [hfa2]
  · simp [hfa2]

end Profile

namespace Profile

theorem C1_initiate_confirm_round_trip_witness :
    UpdateOwnerProfileService true wOwnerDB { adminId := "A", email := some (some "b@x.com") } =
      .ok (updateAdminRow wOwnerDB "A" bumpVersion,
        { owner := bumpVersion wAdmin, profile := findAdminProfile wOwnerDB "A",
          emailChangeLink := some (emailChangeToken
            ⟨some "A", none, "b@x.com", wAdmin.email, some (wAdmin.emailVerifyVersion + 1)⟩),
          phoneChanged := false }) ∧
    verifyEmailChangeTokenService (updateAdminRow wOwnerDB "A" bumpVersion)
      (some (emailChangeToken
        ⟨some "A", none, "b@x.com", wAdmin.email, some (wAdmin.emailVerifyVersion + 1)⟩)) =
      .ok (updateAdminRow (updateAdminRow wOwnerDB "A" bumpVersion) "A"
            (fun a => { a with email := "b@x.com",
                               emailVerifyVersion := a.emailVerifyVersion + 1 }),
        { owner := { id := wAdmin.id, fullName := wAdmin.fullName, email := "b@x.com",
                     isActive := wAdmin.isActive, isProfileComplete := wAdmin.isProfileComplete,
                     emailVerifyVersion := wAdmin.emailVerifyVersion + 1 + 1 },
          profile := findAdminProfile (updateAdminRow (updateAdminRow wOwnerDB "A" bumpVersion) "A"
            (fun a => { a with email := "b@x.com",
                               emailVerifyVersion := a.emailVerifyVersion + 1 })) "A",
          emailChanged := true }) ∧
    (findAdmin (updateAdminRow (updateAdminRow wOwnerDB "A" bumpVersion) "A"
        (fun a => { a with email := "b@x.com",
                           emailVerifyVersion := a.emailVerifyVersion + 1 })) "A").map
      (fun a => a.email) = some "b@x.com" ∧
    (findAdmin (updateAdminRow (updateAdminRow wOwnerDB "A" bumpVersion) "A"
        (fun a => { a with email := "b@x.com",
                           emailVerifyVersion := a.emailVerifyVersion + 1 })) "A").map
      (fun a => a.emailVerifyVersion) = some (wAdmin.emailVerifyVersion + 2) :=
  C1_initiate_confirm_round_trip true wOwnerDB "A" "b@x.com" wAdmin wProfile
    (by decide) (by decide) (by decide) (by decide) (by decide) (by decide) (by decide)
    (by decide) (by decide) (by decide) (by decide) (by rfl)

end Profile
